import Mathlib

/-!
# Verification of the loan-cost simulation and recommendation engine

A shallow embedding, over `ℚ`, of the financial calculation engine
(`app/services/financial.py`) and the recommendation scoring engine
(`app/services/recommendations.py`) of the loan-ai repository, together
with theorems settling the specification claims about them.

Machine floats of the source are modelled as exact rationals; months and
day counts are modelled as integers (Python `int`).
-/

set_option maxRecDepth 20000

namespace LoanAI

/-! ## Data model (`financial.py` dataclasses) -/

/-- A single month's payment breakdown in the amortization schedule. -/
structure MonthlyPayment where
  month : ℤ
  interest : ℚ
  principal : ℚ
  payment : ℚ
  remaining_balance : ℚ
  fees : ℚ := 0
  insurance : ℚ := 0
  rate_applied : ℚ := 0
  is_grace_period : Bool := false
  deriving DecidableEq, Repr

/-- Complete amortization schedule with summary metrics. -/
structure AmortizationSchedule where
  payments : List MonthlyPayment
  total_interest : ℚ := 0
  total_principal : ℚ := 0
  total_payments : ℚ := 0
  total_fees : ℚ := 0
  total_insurance : ℚ := 0
  deriving DecidableEq, Repr

/-- Rate configuration for a loan product. -/
structure RateStructure where
  fixed_rate_pct : ℚ := 0
  fixed_months : ℤ := 0
  floating_margin_pct : ℚ := 0
  reference_rate_pct : ℚ := 5
  deriving DecidableEq, Repr

/-- `RateStructure.get_rate_for_month`: the applicable annual rate (as a
decimal) for a given month, under a stress bump. -/
def RateStructure.get_rate_for_month (rs : RateStructure) (month : ℤ)
    (scenario_bump : ℚ) : ℚ :=
  if month ≤ rs.fixed_months then
    rs.fixed_rate_pct / 100
  else
    (rs.reference_rate_pct + rs.floating_margin_pct + scenario_bump * 100) / 100

/-- One prepayment-penalty tier.  In the source these are loose dicts
`{months_from, months_to, fee_pct}` read with `.get` defaults
(`months_from` defaults to 0, `fee_pct` to 0, `months_to = None` meaning
open-ended); a missing key is modelled by its default value. -/
structure PrepaymentTier where
  months_from : ℤ := 0
  months_to : Option ℤ := none
  fee_pct : ℚ := 0
  deriving DecidableEq, Repr

/-- Fee configuration for a loan product.  `origination_max_vnd` defaults to
`float('inf')` in the source; `none` models that absent/infinite bound. -/
structure FeeStructure where
  origination_fee_pct : ℚ := 0
  origination_min_vnd : ℚ := 0
  origination_max_vnd : Option ℚ := none
  appraisal_fee_vnd : ℚ := 0
  disbursement_fee_vnd : ℚ := 0
  disbursement_fee_pct : ℚ := 0
  account_maintenance_fee_vnd : ℚ := 0
  insurance_annual_pct : ℚ := 0
  insurance_vnd : ℚ := 0
  insurance_basis : String := "on_balance"
  property_value_vnd : ℚ := 0
  prepayment_schedule : List PrepaymentTier := []
  deriving DecidableEq, Repr

/-- Prepayment configuration. -/
structure PrepaymentInfo where
  prepayment_month : Option ℤ := none
  prepayment_amount_vnd : Option ℚ := none
  is_partial : Bool := false
  deriving DecidableEq, Repr

/-- Summary of all loan costs over a horizon. -/
structure LoanCostSummary where
  total_interest : ℚ
  total_fees : ℚ
  total_insurance : ℚ
  total_cost_excluding_principal : ℚ
  total_out_of_pocket : ℚ
  apr : ℚ
  monthly_payment_first_12m : ℚ
  monthly_payment_post_promo : ℚ
  prepayment_fee : ℚ := 0
  deriving DecidableEq, Repr

/-! ## Core amortization functions -/

/-- `annuity_payment`: constant monthly payment for an annuity schedule. -/
def annuity_payment (principal : ℚ) (annual_rate : ℚ) (months : ℤ) : ℚ :=
  if principal ≤ 0 ∨ months ≤ 0 then 0
  else
    let monthly_rate := max annual_rate 0 / 12
    if monthly_rate = 0 then principal / (months : ℚ)
    else
      let factor := (1 + monthly_rate) ^ months.toNat
      principal * monthly_rate * factor / (factor - 1)

/-- `_calculate_upfront_fees`: total upfront fees at disbursement. -/
def _calculate_upfront_fees (principal : ℚ) (fs : FeeStructure) : ℚ :=
  let origination := principal * (fs.origination_fee_pct / 100)
  let origination := max origination fs.origination_min_vnd
  let origination :=
    match fs.origination_max_vnd with
    | none => origination
    | some m => min origination m
  origination + fs.appraisal_fee_vnd + fs.disbursement_fee_vnd
    + principal * (fs.disbursement_fee_pct / 100)

/-- `_calculate_monthly_insurance`: monthly insurance cost. -/
def _calculate_monthly_insurance (balance : ℚ) (fs : FeeStructure) : ℚ :=
  if 0 < fs.insurance_vnd then fs.insurance_vnd / 12
  else if 0 < fs.insurance_annual_pct then
    if fs.insurance_basis = "on_property_value" ∧ 0 < fs.property_value_vnd then
      fs.property_value_vnd * (fs.insurance_annual_pct / 100) / 12
    else
      balance * (fs.insurance_annual_pct / 100) / 12
  else 0

/-- `_calculate_prepayment_fee`: fee from the first tier whose month range
contains `month` (`months_to = None` is treated as `+∞`); `0` if no tier
matches or the list is empty. -/
def _calculate_prepayment_fee (remaining_balance : ℚ) (month : ℤ) :
    List PrepaymentTier → ℚ
  | [] => 0
  | tier :: rest =>
    let below_hi : Bool :=
      match tier.months_to with
      | none => true
      | some hi => decide (month ≤ hi)
    if tier.months_from ≤ month ∧ below_hi = true then
      remaining_balance * (tier.fee_pct / 100)
    else
      _calculate_prepayment_fee remaining_balance month rest

/-- `calculate_prepayment_fee` (public wrapper). -/
def calculate_prepayment_fee (remaining_balance : ℚ) (month : ℤ)
    (fee_structure : Option FeeStructure) : ℚ :=
  match fee_structure with
  | none => 0
  | some fs => _calculate_prepayment_fee remaining_balance month fs.prepayment_schedule

/-- The keyword arguments of `generate_amortization_schedule` other than the
principal, bundled for convenience. -/
structure SchedCfg where
  tenor_months : ℤ
  rate_structure : RateStructure
  repayment_method : String := "annuity"
  grace_principal_months : ℤ := 0
  grace_interest_months : ℤ := 0
  fee_structure : Option FeeStructure := none
  prepayment_info : Option PrepaymentInfo := none
  scenario_bump : ℚ := 0
  deriving DecidableEq, Repr

/-- The prepayment tiers the scheduler consults:
`fee_structure.prepayment_schedule if fee_structure else []`. -/
def SchedCfg.tiers (cfg : SchedCfg) : List PrepaymentTier :=
  match cfg.fee_structure with
  | none => []
  | some fs => fs.prepayment_schedule

/-- `prepayment_info and prepayment_info.prepayment_month == month`. -/
def prepayFires (cfg : SchedCfg) (month : ℤ) : Prop :=
  match cfg.prepayment_info with
  | none => False
  | some pi => pi.prepayment_month = some month

instance (cfg : SchedCfg) (month : ℤ) : Decidable (prepayFires cfg month) := by
  unfold prepayFires
  cases cfg.prepayment_info <;> infer_instance

/-- The terminal entry appended when the configured prepayment month is
reached: the full remaining balance is paid plus the tiered prepayment fee,
no interest is charged, and the balance drops to 0. -/
def prepayEntry (cfg : SchedCfg) (month : ℤ) (remaining current_rate : ℚ) :
    MonthlyPayment :=
  let prepay_fee := _calculate_prepayment_fee remaining month cfg.tiers
  { month := month
    interest := 0
    principal := remaining
    payment := remaining + prepay_fee
    remaining_balance := 0
    fees := prepay_fee
    insurance := 0
    rate_applied := current_rate
    is_grace_period := false }

/-- The rate used for a month: the resolved rate if it moved by more than
the `1e-10` epsilon from the carried rate, else the carried rate. -/
def monthRate (cfg : SchedCfg) (month : ℤ) (current_rate : ℚ) : ℚ :=
  let new_rate := cfg.rate_structure.get_rate_for_month month cfg.scenario_bump
  if 1 / 10 ^ 10 < |new_rate - current_rate| then new_rate else current_rate

/-- The month's interest: 0 inside the interest-grace window, else the
balance times the monthly rate. -/
def monthInterest (cfg : SchedCfg) (month : ℤ) (remaining rate : ℚ) : ℚ :=
  if month ≤ cfg.grace_interest_months then 0 else remaining * (rate / 12)

/-- The month's principal portion before the clamp: 0 in principal grace,
the equal-principal split, or the recomputed annuity payment minus
interest. -/
def rawPrincipal (cfg : SchedCfg) (month : ℤ) (remaining rate interest : ℚ) : ℚ :=
  if month ≤ cfg.grace_principal_months then 0
  else if cfg.repayment_method = "equal_principal" then
    remaining / ((cfg.tenor_months - month + 1 : ℤ) : ℚ)
  else
    annuity_payment remaining rate (cfg.tenor_months - month + 1) - interest

/-- The month's recorded total payment (before the principal clamp, as in
the source). -/
def monthPayment (cfg : SchedCfg) (month : ℤ) (remaining rate interest : ℚ) : ℚ :=
  if month ≤ cfg.grace_principal_months then interest
  else if cfg.repayment_method = "equal_principal" then
    remaining / ((cfg.tenor_months - month + 1 : ℤ) : ℚ) + interest
  else
    annuity_payment remaining rate (cfg.tenor_months - month + 1)

/-- The clamped principal portion actually paid. -/
def clampedPrincipal (cfg : SchedCfg) (month : ℤ) (remaining rate : ℚ) : ℚ :=
  min (rawPrincipal cfg month remaining rate
        (monthInterest cfg month remaining rate)) remaining

/-- The balance after the month (`max(0, remaining - principal_payment)`). -/
def postBalance (cfg : SchedCfg) (month : ℤ) (remaining rate : ℚ) : ℚ :=
  max 0 (remaining - clampedPrincipal cfg month remaining rate)

/-- One non-prepayment iteration of the scheduler loop: grace handling,
interest, principal portion (annuity recomputation or equal-principal
split), the principal clamp, balance update, and recurring fees/insurance
(the insurance is computed on `new_remaining + principal_payment`, the
balance at the start of the month).  `rate` is the rate already updated by
`monthRate` for this month. -/
def normalEntry (cfg : SchedCfg) (month : ℤ) (remaining rate : ℚ) :
    MonthlyPayment :=
  { month := month
    interest := monthInterest cfg month remaining rate
    principal := clampedPrincipal cfg month remaining rate
    payment := monthPayment cfg month remaining rate
      (monthInterest cfg month remaining rate)
    remaining_balance := postBalance cfg month remaining rate
    fees :=
      match cfg.fee_structure with
      | none => 0
      | some fs => fs.account_maintenance_fee_vnd
    insurance :=
      match cfg.fee_structure with
      | none => 0
      | some fs =>
        _calculate_monthly_insurance
          (postBalance cfg month remaining rate
            + clampedPrincipal cfg month remaining rate) fs
    rate_applied := rate
    is_grace_period := decide (month ≤ cfg.grace_principal_months)
      || decide (month ≤ cfg.grace_interest_months) }

/-- The scheduler's `for month in range(1, tenor+1)` loop.  `fuel` is the
number of months still to iterate (so `month + fuel = tenor + 1` at every
call); the loop stops early on the prepayment branch or when the balance
reaches 0.  The source also tracks `months_at_current_rate` and
`remaining_at_rate_start`, which are written but never read; they are
omitted as dead state. -/
def amortRec (cfg : SchedCfg) : ℕ → ℤ → ℚ → ℚ → List MonthlyPayment
  | 0, _, _, _ => []
  | fuel + 1, month, remaining, current_rate =>
    if prepayFires cfg month then
      [prepayEntry cfg month remaining current_rate]
    else
      normalEntry cfg month remaining (monthRate cfg month current_rate) ::
        (if (normalEntry cfg month remaining
              (monthRate cfg month current_rate)).remaining_balance ≤ 0 then []
         else amortRec cfg fuel (month + 1)
           (normalEntry cfg month remaining
             (monthRate cfg month current_rate)).remaining_balance
           (monthRate cfg month current_rate))

/-- `generate_amortization_schedule`.  The running totals accumulated by the
source loop equal the sums of the corresponding per-entry fields
(the prepayment branch adds the entry's `fees` and `principal` and no
interest, and the entry records `interest = 0`), plus the upfront fees for
`total_fees`; the totals are defined here as those sums. -/
def generate_amortization_schedule (principal : ℚ) (cfg : SchedCfg) :
    AmortizationSchedule :=
  if principal ≤ 0 ∨ cfg.tenor_months ≤ 0 then { payments := [] }
  else
    let upfront_fees :=
      match cfg.fee_structure with
      | none => 0
      | some fs => _calculate_upfront_fees principal fs
    let ps := amortRec cfg cfg.tenor_months.toNat 1 principal
      (cfg.rate_structure.get_rate_for_month 1 cfg.scenario_bump)
    { payments := ps
      total_interest := (ps.map (·.interest)).sum
      total_principal := (ps.map (·.principal)).sum
      total_payments := (ps.map (·.payment)).sum
      total_fees := upfront_fees + (ps.map (·.fees)).sum
      total_insurance := (ps.map (·.insurance)).sum }

/-! ## APR / IRR calculation -/

/-- NPV of a cashflow vector at a monthly rate (index 0 is time 0). -/
def npvSum (cashflows : List ℚ) (rate : ℚ) : ℚ :=
  (cashflows.enum.map (fun tc => tc.2 / (1 + rate) ^ tc.1)).sum

/-- Derivative of the NPV accumulated by the source loop
(`npv_derivative -= t * cf / (1+rate)^(t+1)` for `t > 0`; the `t = 0` term
is zero, so it is included here without the guard). -/
def npvDeriv (cashflows : List ℚ) (rate : ℚ) : ℚ :=
  -((cashflows.enum.map
      (fun tc => (tc.1 : ℚ) * tc.2 / (1 + rate) ^ (tc.1 + 1))).sum)

/-- The Newton-Raphson loop of `calculate_irr`: up to `fuel` iterations from
the carried rate; stops on derivative underflow (`|d| < 1e-20`, returning
the carried rate), or on convergence (`|new - rate| < 1e-10`, returning the
new clamped rate); each iterate is clamped to `[-0.5, 1.0]`. -/
def irrLoop (cashflows : List ℚ) : ℕ → ℚ → ℚ
  | 0, rate => rate
  | fuel + 1, rate =>
    let npv := npvSum cashflows rate
    let d := npvDeriv cashflows rate
    if |d| < 1 / 10 ^ 20 then rate
    else
      let new_rate := rate - npv / d
      let new_rate := max (-(1 / 2)) (min new_rate 1)
      if |new_rate - rate| < 1 / 10 ^ 10 then new_rate
      else irrLoop cashflows fuel new_rate

/-- `calculate_irr` with its default arguments: 100 iterations, tolerance
`1e-10`, starting guess 1% monthly. -/
def calculate_irr (cashflows : List ℚ) : ℚ :=
  if cashflows.length < 2 then 0 else irrLoop cashflows 100 (1 / 100)

/-- The cashflow vector built by `calculate_apr`: net disbursement at time
0, then the negated monthly outflows, the last one also carrying the
prepayment fee. -/
def aprCashflows (principal : ℚ) (schedule : AmortizationSchedule)
    (upfront_fees prepayment_fee : ℚ) : List ℚ :=
  (principal - upfront_fees) ::
    schedule.payments.enum.map (fun ip =>
      let total_payment := ip.2.payment + ip.2.fees + ip.2.insurance
      if ip.1 = schedule.payments.length - 1 then -(total_payment + prepayment_fee)
      else -total_payment)

/-- `calculate_apr`: IRR-based effective annual rate
`(1 + monthly_irr)^12 - 1`; 0 for an empty schedule. -/
def calculate_apr (principal : ℚ) (schedule : AmortizationSchedule)
    (upfront_fees prepayment_fee : ℚ) : ℚ :=
  if schedule.payments = [] then 0
  else
    let monthly_irr :=
      calculate_irr (aprCashflows principal schedule upfront_fees prepayment_fee)
    (1 + monthly_irr) ^ 12 - 1

/-! ## Stress testing -/

/-- Python `x or default` on an optional int (`None` and `0` both fall back
to the default). -/
def pyOrInt (o : Option ℤ) (default : ℤ) : ℤ :=
  match o with
  | none => default
  | some n => if n = 0 then default else n

/-- Python truthiness of an optional int: `Some n` with `n ≠ 0`. -/
def intTruthy (o : Option ℤ) : Prop :=
  match o with
  | none => False
  | some n => n ≠ 0

instance (o : Option ℤ) : Decidable (intTruthy o) := by
  unfold intTruthy
  cases o <;> infer_instance

/-- Python truthiness of an optional rational. -/
def ratTruthy (o : Option ℚ) : Prop :=
  match o with
  | none => False
  | some q => q ≠ 0

instance (o : Option ℚ) : Decidable (ratTruthy o) := by
  unfold ratTruthy
  cases o <;> infer_instance

/-- One scenario of `stress_test_scenarios` at a given bump. -/
def stressScenario (principal : ℚ) (tenor_months : ℤ)
    (rate_structure : RateStructure) (repayment_method : String)
    (grace_principal_months : ℤ) (fee_structure : Option FeeStructure)
    (prepayment_info : Option PrepaymentInfo) (horizon_months : Option ℤ)
    (bump : ℚ) : LoanCostSummary :=
  let horizon := pyOrInt horizon_months tenor_months
  let cfg : SchedCfg :=
    { tenor_months := tenor_months
      rate_structure := rate_structure
      repayment_method := repayment_method
      grace_principal_months := grace_principal_months
      grace_interest_months := 0
      fee_structure := fee_structure
      prepayment_info := prepayment_info
      scenario_bump := bump }
  let schedule := generate_amortization_schedule principal cfg
  let horizon_payments := schedule.payments.filter (fun p => p.month ≤ horizon)
  let total_interest := (horizon_payments.map (·.interest)).sum
  let total_fees := (horizon_payments.map (·.fees)).sum
  let total_insurance := (horizon_payments.map (·.insurance)).sum
  let upfront_fees :=
    match fee_structure with
    | none => 0
    | some fs => _calculate_upfront_fees principal fs
  let total_fees := total_fees + upfront_fees
  let prepay_fee :=
    match prepayment_info with
    | none => 0
    | some pi =>
      if intTruthy pi.prepayment_month then
        match schedule.payments.find?
            (fun p => p.month = pi.prepayment_month.getD 0) with
        | none => 0
        | some p => p.fees
      else 0
  let apr := calculate_apr principal schedule upfront_fees prepay_fee
  let first_12 := (horizon_payments.take 12).map (·.payment)
  let post_promo := (schedule.payments.filter
    (fun p => rate_structure.fixed_months < p.month)).map (·.payment)
  let monthly_first_12 :=
    if first_12 = [] then 0 else first_12.sum / (first_12.length : ℚ)
  let monthly_post_promo :=
    if post_promo = [] then 0 else post_promo.sum / (post_promo.length : ℚ)
  let total_payments := (horizon_payments.map (·.payment)).sum
  { total_interest := total_interest
    total_fees := total_fees
    total_insurance := total_insurance
    total_cost_excluding_principal := total_interest + total_fees + total_insurance
    total_out_of_pocket := upfront_fees + total_payments + total_insurance + prepay_fee
    apr := apr
    monthly_payment_first_12m := monthly_first_12
    monthly_payment_post_promo := monthly_post_promo
    prepayment_fee := prepay_fee }

/-- The three scenario summaries keyed `"+0%"`, `"+2%"`, `"+4%"` in the
source dict. -/
structure StressScenarios where
  base : LoanCostSummary
  plus2 : LoanCostSummary
  plus4 : LoanCostSummary
  deriving DecidableEq, Repr

/-- `stress_test_scenarios`: one `LoanCostSummary` per bump in
`[0.0, 0.02, 0.04]`. -/
def stress_test_scenarios (principal : ℚ) (tenor_months : ℤ)
    (rate_structure : RateStructure) (repayment_method : String)
    (grace_principal_months : ℤ) (fee_structure : Option FeeStructure)
    (prepayment_info : Option PrepaymentInfo) (horizon_months : Option ℤ) :
    StressScenarios :=
  { base := stressScenario principal tenor_months rate_structure
      repayment_method grace_principal_months fee_structure prepayment_info
      horizon_months 0
    plus2 := stressScenario principal tenor_months rate_structure
      repayment_method grace_principal_months fee_structure prepayment_info
      horizon_months (2 / 100)
    plus4 := stressScenario principal tenor_months rate_structure
      repayment_method grace_principal_months fee_structure prepayment_info
      horizon_months (4 / 100) }

/-! ## Recommendation engine data model (`recommendations.py`)

The SQLAlchemy entities and loose JSON dicts consumed by the engine are
modelled as snapshot structures holding exactly the fields the engine
reads; a dict read through `.get` with a default is modelled by an
`Option` field (or by the default value when the two are indistinguishable
to the engine).  Python truthiness of optional numbers (`None` and `0` are
both falsy) is modelled by `intTruthy`/`ratTruthy`, of optional strings by
`strTruthy`, and `x or d` on optional ints by `pyOrInt`.  Dates are
modelled as absolute day numbers, so `(d1 - d2).days` becomes integer
subtraction and `date.today()` is an explicit `today` parameter. -/

/-- Python truthiness of an optional string (`None` and `""` are falsy). -/
def strTruthy (o : Option String) : Prop :=
  match o with
  | none => False
  | some s => s ≠ ""

instance (o : Option String) : Decidable (strTruthy o) := by
  unfold strTruthy
  cases o <;> infer_instance

/-- `RepaymentStrategy` enum. -/
inductive RepaymentStrategy where
  | UNCERTAIN
  | EARLY_EXIT
  | LONG_HOLD
  deriving DecidableEq, Repr

/-- `bank.processing_sla` dict (each component read with `or 0`). -/
structure ProcessingSla where
  pre_approval_days : Option ℤ := none
  appraisal_days : Option ℤ := none
  final_approval_days : Option ℤ := none
  disbursement_days : Option ℤ := none
  deriving DecidableEq, Repr

/-- Bank snapshot (fields the engine reads). -/
structure BankInfo where
  coverage_provinces : List String := []
  processing_sla : Option ProcessingSla := none
  deriving DecidableEq, Repr

/-- One entry of `rate_model.promo_options`. -/
structure PromoOption where
  fixed_rate_pct : Option ℚ := none
  fixed_months : Option ℤ := none
  deriving DecidableEq, Repr

/-- `rate_model.floating` dict; the URL and caps entries are only tested
for truthiness, so they are modelled as booleans. -/
structure FloatingInfo where
  floating_margin_pct : Option ℚ := none
  has_reference_rate_source_url : Bool := false
  has_caps_floors : Bool := false
  deriving DecidableEq, Repr

/-- `product.rate_model` snapshot. -/
structure RateModel where
  promo_options : List PromoOption := []
  floating : Option FloatingInfo := none
  reference_rate_base_pct : Option ℚ := none
  deriving DecidableEq, Repr

/-- `product.fees_penalties` with its `upfront`, `recurring` and
`prepayment` dicts flattened to the keys the engine reads. -/
structure FeesPenaltiesCfg where
  origination_fee_pct : ℚ := 0
  origination_min_vnd : ℚ := 0
  origination_max_vnd : Option ℚ := none
  appraisal_fee_vnd : ℚ := 0
  disbursement_fee_vnd : ℚ := 0
  disbursement_fee_pct : ℚ := 0
  account_maintenance_fee_vnd : ℚ := 0
  insurance_annual_pct : ℚ := 0
  insurance_vnd : ℚ := 0
  insurance_basis : String := "on_balance"
  prepayment_schedule : List PrepaymentTier := []
  deriving DecidableEq, Repr

/-- `product.repayment` dict. -/
structure RepaymentCfg where
  repayment_method : Option String := none
  grace_principal_months : Option ℤ := none
  deriving DecidableEq, Repr

/-- Loan product snapshot: the columns and JSON fields the engine reads.
`eligibility_*` flatten the `eligibility` dict, `collateral_types` flattens
`collateral["collateral_types"]`, and `constraints_max_dsr` /
`constraints_max_ltv` flatten `constraints_json["hard"]`. -/
structure LoanProductInfo where
  purpose : Option String := none
  min_term_months : Option ℤ := none
  max_term_months : Option ℤ := none
  max_ltv_pct : Option ℚ := none
  min_loan_amount : Option ℚ := none
  max_loan_amount : Option ℚ := none
  eligibility_income_type_supported : List String := []
  eligibility_min_income_vnd : Option ℚ := none
  collateral_types : List String := []
  bank : Option BankInfo := none
  constraints_max_dsr : Option ℚ := none
  constraints_max_ltv : Option ℚ := none
  rate_fixed : Option ℚ := none
  rate_fixed_months : Option ℤ := none
  floating_margin : Option ℚ := none
  rate_model : Option RateModel := none
  fees_penalties : Option FeesPenaltiesCfg := none
  sla_days_estimate : Option ℤ := none
  repayment : Option RepaymentCfg := none
  deriving DecidableEq, Repr

/-- One collateral row of an application. -/
structure Collateral where
  collateral_type : String
  estimated_value : ℚ := 0
  deriving DecidableEq, Repr

/-- Application snapshot: the fields the engine reads.  The credit-flag
dict entries are modelled as booleans, the preference dict by its
`priority_cost_vs_stability` entry. -/
structure ApplicationInfo where
  purpose : String := ""
  loan_amount : ℚ := 0
  tenor_months : Option ℤ := none
  income_type : Option String := none
  collaterals : List Collateral := []
  geo_location : Option String := none
  repayment_strategy : RepaymentStrategy := .UNCERTAIN
  planned_hold_months : Option ℤ := none
  expected_prepayment_month : Option ℤ := none
  expected_prepayment_amount_vnd : Option ℚ := none
  proof_strength : Option String := none
  has_late_payments : Bool := false
  cic_bad_debt : Bool := false
  need_disbursement_by_date : Option ℤ := none
  estimated_property_value_vnd : Option ℚ := none
  priority_cost_vs_stability : Option ℚ := none
  deriving DecidableEq, Repr

/-- Derived metrics computed by the external metrics calculator and
consumed through `metrics.get(...)`. -/
structure Metrics where
  total_income : Option ℚ := none
  dsr : Option ℚ := none
  ltv : Option ℚ := none
  deriving DecidableEq, Repr

/-- The fields of `_extract_user_input` the engine reads downstream. -/
structure UserInput where
  property_value : ℚ := 0
  priority_cost_vs_stability : ℚ := 50
  deriving DecidableEq, Repr

/-- `_extract_user_input` (restricted to the fields read downstream). -/
def _extract_user_input (application : ApplicationInfo) : UserInput :=
  let property_value :=
    if ratTruthy application.estimated_property_value_vnd then
      application.estimated_property_value_vnd.getD 0
    else if application.collaterals ≠ [] then
      (application.collaterals.map (·.estimated_value)).sum
    else 0
  { property_value := property_value
    priority_cost_vs_stability := application.priority_cost_vs_stability.getD 50 }

/-! ## Hard eligibility filter -/

/-- `_apply_hard_filters_with_tenor`: returns `(passes, reasons)` with
`passes = (reasons = [])`; every applicable check runs and appends its
reason code in source order. -/
def _apply_hard_filters_with_tenor (application : ApplicationInfo)
    (metrics : Metrics) (product : LoanProductInfo) (user_input : UserInput)
    (effective_tenor : ℤ) : Bool × List String :=
  let reasons : List String :=
    (match product.purpose with
     | none => []
     | some product_purpose =>
       let app_purpose := application.purpose
       let purpose_matches :=
         app_purpose = product_purpose ∨
         (app_purpose = "NEW_PURCHASE" ∧
           (product_purpose = "HOME_PURCHASE" ∨ product_purpose = "NEW_PURCHASE")) ∨
         (app_purpose = "HOME_PURCHASE" ∧ product_purpose = "NEW_PURCHASE")
       if purpose_matches then [] else ["PURPOSE_NOT_SUPPORTED"])
    ++ (if intTruthy product.min_term_months ∧
          effective_tenor < product.min_term_months.getD 0 then
          ["TENOR_TOO_SHORT"] else [])
    ++ (if intTruthy product.max_term_months ∧
          product.max_term_months.getD 0 < effective_tenor then
          ["TENOR_TOO_LONG"] else [])
    ++ (if 0 < user_input.property_value ∧ ratTruthy product.max_ltv_pct ∧
          user_input.property_value * (product.max_ltv_pct.getD 0 / 100)
            < application.loan_amount then
          ["LTV_EXCEEDS_MAX"] else [])
    ++ (if ratTruthy product.min_loan_amount ∧
          application.loan_amount < product.min_loan_amount.getD 0 then
          ["LOAN_AMOUNT_TOO_LOW"] else [])
    ++ (if ratTruthy product.max_loan_amount ∧
          product.max_loan_amount.getD 0 < application.loan_amount then
          ["LOAN_AMOUNT_TOO_HIGH"] else [])
    ++ (if product.eligibility_income_type_supported ≠ [] ∧
          application.income_type.isSome ∧
          ¬ (application.income_type.getD ""
              ∈ product.eligibility_income_type_supported) then
          ["INCOME_TYPE_NOT_SUPPORTED"] else [])
    ++ (if ratTruthy product.eligibility_min_income_vnd ∧
          ratTruthy metrics.total_income ∧
          metrics.total_income.getD 0 < product.eligibility_min_income_vnd.getD 0 then
          ["INCOME_BELOW_MIN"] else [])
    ++ (if product.collateral_types ≠ [] ∧ application.collaterals ≠ [] ∧
          ¬ ∃ c ∈ application.collaterals,
              c.collateral_type ∈ product.collateral_types then
          ["COLLATERAL_TYPE_NOT_ALLOWED"] else [])
    ++ (match product.bank with
        | none => []
        | some bank =>
          if bank.coverage_provinces ≠ [] ∧ strTruthy application.geo_location ∧
              ¬ (application.geo_location.getD "" ∈ bank.coverage_provinces) then
            ["GEO_NOT_SUPPORTED"] else [])
    ++ (if product.constraints_max_dsr.isSome ∧ metrics.dsr.isSome ∧
          product.constraints_max_dsr.getD 0 < metrics.dsr.getD 0 then
          ["DSR_EXCEEDS_MAX"] else [])
  (reasons.isEmpty, reasons)

/-! ## Score calculation -/

/-- The five factor scores plus the weighted total. -/
structure Scores where
  total : ℚ
  cost : ℚ
  stability : ℚ
  approval : ℚ
  speed : ℚ
  penalties : ℚ
  deriving DecidableEq, Repr

/-- The strategy weight vector. -/
structure Weights where
  cost : ℚ
  stability : ℚ
  approval : ℚ
  speed : ℚ
  penalties : ℚ
  deriving DecidableEq, Repr

/-- `_calculate_cost_score`: average of an APR-based sub-score
(8% → 100, 15% → 0) and a total-cost-ratio sub-score (10% → 100, 50% → 0),
each clamped to `[0, 100]`. -/
def _calculate_cost_score (scenario : Option LoanCostSummary)
    (principal : ℚ) : ℚ :=
  match scenario with
  | none => 50
  | some s =>
    let apr_pct := s.apr * 100
    let apr_score := max 0 (min 100 (100 - (apr_pct - 8) * (100 / 7)))
    let cost_ratio :=
      if 0 < principal then s.total_cost_excluding_principal / principal else 0
    let cost_score :=
      max 0 (min 100 (100 - (cost_ratio - 10 / 100) * (100 / (40 / 100))))
    (apr_score + cost_score) / 2

/-- The promo-option fold raising `fixed_months` inside
`_calculate_stability_score` (`option.get("fixed_months", 0) > fixed_months`
then take it). -/
def promoMaxFixed : List PromoOption → ℤ → ℤ
  | [], fm => fm
  | o :: rest, fm =>
    promoMaxFixed rest (if fm < o.fixed_months.getD 0 then o.fixed_months.getD 0 else fm)

/-- `_calculate_stability_score`: a payment-volatility sub-score (clamped)
blended with a fixed-period sub-score, weighted by the borrower's
cost-vs-stability preference.  Note the blend itself is not clamped. -/
def _calculate_stability_score (product : LoanProductInfo)
    (base stress : Option LoanCostSummary) (user_input : UserInput) : ℚ :=
  match base, stress with
  | some b, some s =>
    let volatility :=
      if 0 < b.monthly_payment_first_12m then
        (s.monthly_payment_post_promo - b.monthly_payment_first_12m)
          / b.monthly_payment_first_12m
      else 0
    let volatility_score := max 0 (min 100 (100 - volatility * 500))
    let fixed_months0 := product.rate_fixed_months.getD 0
    let fixed_months :=
      match product.rate_model with
      | none => fixed_months0
      | some rm =>
        if rm.promo_options ≠ [] then promoMaxFixed rm.promo_options fixed_months0
        else fixed_months0
    let fixed_score := min 100 ((fixed_months : ℚ) * (100 / 24))
    let stability_pref := user_input.priority_cost_vs_stability / 100
    volatility_score * (1 - stability_pref * (3 / 10))
      + fixed_score * (stability_pref * (3 / 10) + 35 / 100)
  | _, _ => 50

/-- `_calculate_approval_score`: base 70 adjusted by DSR margin, LTV
margin, proof strength, and credit flags; clamped to `[0, 100]`. -/
def _calculate_approval_score (product : LoanProductInfo)
    (application : ApplicationInfo) (metrics : Metrics) : ℚ :=
  let score : ℚ := 70
  let score := score +
    (if ratTruthy product.constraints_max_dsr ∧ metrics.dsr.isSome then
       (let max_dsr := product.constraints_max_dsr.getD 0
        let dsr := metrics.dsr.getD 0
        (if 0 < max_dsr then (max_dsr - dsr) / max_dsr else 0) * 15)
     else 0)
  let max_ltv : Option ℚ :=
    if ratTruthy product.constraints_max_ltv then product.constraints_max_ltv
    else if ratTruthy product.max_ltv_pct then
      some (product.max_ltv_pct.getD 0 / 100)
    else none
  let score := score +
    (if ratTruthy max_ltv ∧ metrics.ltv.isSome then
       (let ml := max_ltv.getD 0
        let ltv := metrics.ltv.getD 0
        (if 0 < ml then (ml - ltv) / ml else 0) * 10)
     else 0)
  let score := score +
    (match application.proof_strength with
     | none => 0
     | some ps =>
       if ps = "STRONG" then 10 else if ps = "MEDIUM" then 5
       else if ps = "WEAK" then -5 else 0)
  let score := score - (if application.has_late_payments then 15 else 0)
  let score := score - (if application.cic_bad_debt then 25 else 0)
  max 0 (min 100 score)

/-- `_calculate_speed_score`: SLA days against either an absolute scale or
the margin to the requested disbursement date; `today` models
`date.today()`. -/
def _calculate_speed_score (product : LoanProductInfo)
    (application : ApplicationInfo) (today : ℤ) : ℚ :=
  let sla_days0 : ℤ := pyOrInt product.sla_days_estimate 30
  let sla_days : ℤ :=
    match product.bank with
    | none => sla_days0
    | some bank =>
      match bank.processing_sla with
      | none => sla_days0
      | some sla =>
        sla.pre_approval_days.getD 0 + sla.appraisal_days.getD 0
          + sla.final_approval_days.getD 0 + sla.disbursement_days.getD 0
  match application.need_disbursement_by_date with
  | none => max 50 (min 100 (100 - ((sla_days : ℚ) - 7) * (50 / 53)))
  | some need_by =>
    let days_until_needed : ℤ := need_by - today
    if sla_days ≤ days_until_needed then
      let margin : ℚ :=
        if 0 < days_until_needed then
          ((days_until_needed : ℚ) - (sla_days : ℚ)) / (days_until_needed : ℚ)
        else 1
      min 100 (80 + margin * 20)
    else
      max 0 (50 - ((sla_days : ℚ) - (days_until_needed : ℚ)) * 5)

/-- `_calculate_penalties_score`: 80 when no prepayment is planned (or no
scenario / non-positive loan), else `100 - fee_pct * 100/3` clamped. -/
def _calculate_penalties_score (product : LoanProductInfo)
    (application : ApplicationInfo) (scenario : Option LoanCostSummary) : ℚ :=
  match scenario with
  | none => 80
  | some s =>
    if ¬ intTruthy application.expected_prepayment_month then 80
    else if application.loan_amount ≤ 0 then 80
    else
      let fee_pct := s.prepayment_fee / application.loan_amount * 100
      max 0 (min 100 (100 - fee_pct * (100 / 3)))

/-- `_calculate_multi_factor_score`: the five factor scores and their
default-weight total.  `scenario_plus0` and `scenario_plus4` are the
`scenarios.get("+0%")` / `scenarios.get("+4%")` lookups. -/
def _calculate_multi_factor_score (product : LoanProductInfo)
    (application : ApplicationInfo) (metrics : Metrics)
    (user_input : UserInput)
    (scenario_plus0 scenario_plus4 : Option LoanCostSummary)
    (today : ℤ) : Scores :=
  let cost_score := _calculate_cost_score scenario_plus0 application.loan_amount
  let stability_score :=
    _calculate_stability_score product scenario_plus0 scenario_plus4 user_input
  let approval_score := _calculate_approval_score product application metrics
  let speed_score := _calculate_speed_score product application today
  let penalties_score :=
    _calculate_penalties_score product application scenario_plus0
  { total := 35 / 100 * cost_score + 25 / 100 * stability_score
      + 20 / 100 * approval_score + 10 / 100 * speed_score
      + 10 / 100 * penalties_score
    cost := cost_score
    stability := stability_score
    approval := approval_score
    speed := speed_score
    penalties := penalties_score }

/-- `_get_prepay_fee_at_month`: the fee percentage of the first tier whose
range contains the month (a tier with `months_from ≤ month` but
`month > months_to` falls through to later tiers). -/
def _get_prepay_fee_at_month : List PrepaymentTier → ℤ → ℚ
  | [], _ => 0
  | tier :: rest, month =>
    if tier.months_from ≤ month then
      match tier.months_to with
      | none => tier.fee_pct
      | some hi =>
        if month ≤ hi then tier.fee_pct else _get_prepay_fee_at_month rest month
    else _get_prepay_fee_at_month rest month

/-- `_calculate_early_exit_penalties_score`: average prepayment fee
percentage at months 12/24/36, scored 0% → 100, 3% → 0. -/
def _calculate_early_exit_penalties_score (product : LoanProductInfo)
    (application : ApplicationInfo) (scenario : Option LoanCostSummary) : ℚ :=
  match product.fees_penalties with
  | none => 80
  | some fp =>
    if fp.prepayment_schedule = [] then 80
    else
      let fee_at_12m := _get_prepay_fee_at_month fp.prepayment_schedule 12
      let fee_at_24m := _get_prepay_fee_at_month fp.prepayment_schedule 24
      let fee_at_36m := _get_prepay_fee_at_month fp.prepayment_schedule 36
      let avg_fee := (fee_at_12m + fee_at_24m + fee_at_36m) / 3
      max 0 (min 100 (100 - avg_fee * (100 / 3)))

/-- `_build_rate_structure`. -/
def _build_rate_structure (product : LoanProductInfo) : RateStructure :=
  let fixed_rate := product.rate_fixed.getD 0
  let fixed_months := product.rate_fixed_months.getD 0
  let floating_margin := product.floating_margin.getD 0
  let reference_rate : ℚ := 5
  match product.rate_model with
  | none =>
    { fixed_rate_pct := fixed_rate, fixed_months := fixed_months
      floating_margin_pct := floating_margin, reference_rate_pct := reference_rate }
  | some rm =>
    let fr_fm : ℚ × ℤ :=
      match rm.promo_options with
      | [] => (fixed_rate, fixed_months)
      | first :: _ => (first.fixed_rate_pct.getD fixed_rate,
                       first.fixed_months.getD fixed_months)
    let floating_margin :=
      match rm.floating with
      | none => floating_margin
      | some fl => fl.floating_margin_pct.getD floating_margin
    let reference_rate :=
      if ratTruthy rm.reference_rate_base_pct then rm.reference_rate_base_pct.getD 0
      else reference_rate
    { fixed_rate_pct := fr_fm.1, fixed_months := fr_fm.2
      floating_margin_pct := floating_margin, reference_rate_pct := reference_rate }

/-- `_calculate_long_hold_stability_score`. -/
def _calculate_long_hold_stability_score (product : LoanProductInfo)
    (base stress : Option LoanCostSummary) : ℚ :=
  match base, stress with
  | some b, some s =>
    let score : ℚ := 50
    let margin := (_build_rate_structure product).floating_margin_pct
    let margin_score := max 0 (min 100 (100 - (margin - 1) * (100 / 3)))
    let score := score + margin_score * (3 / 10)
    let score := score +
      (match product.rate_model with
       | none => 0
       | some rm =>
         match rm.floating with
         | none => 0
         | some fl =>
           (if fl.has_reference_rate_source_url then 10 else 0)
             + (if fl.has_caps_floors then 10 else 0))
    let score := score +
      (if 0 < b.monthly_payment_first_12m then
         (let volatility :=
            (s.monthly_payment_post_promo - b.monthly_payment_first_12m)
              / b.monthly_payment_first_12m
          max 0 (min 100 (100 - volatility * 500)) * (3 / 10))
       else 0)
    min 100 (max 0 score)
  | _, _ => 50

/-- `_calculate_strategy_adjusted_score`: strategy weights, the
strategy-specific sub-score recomputations, and the weighted total. -/
def _calculate_strategy_adjusted_score (base_scores : Scores)
    (application : ApplicationInfo) (product : LoanProductInfo)
    (scenario_plus0 scenario_plus4 : Option LoanCostSummary) :
    Scores × Weights :=
  let wsc : Weights × Scores :=
    match application.repayment_strategy with
    | .UNCERTAIN =>
      ({ cost := 30 / 100, stability := 20 / 100, approval := 20 / 100
         speed := 10 / 100, penalties := 20 / 100 }, base_scores)
    | .EARLY_EXIT =>
      ({ cost := 25 / 100, stability := 10 / 100, approval := 20 / 100
         speed := 15 / 100, penalties := 30 / 100 },
       { base_scores with penalties :=
          _calculate_early_exit_penalties_score product application scenario_plus0 })
    | .LONG_HOLD =>
      ({ cost := 35 / 100, stability := 35 / 100, approval := 20 / 100
         speed := 5 / 100, penalties := 5 / 100 },
       { base_scores with stability :=
          _calculate_long_hold_stability_score product scenario_plus0 scenario_plus4 })
  let weights := wsc.1
  let scores := wsc.2
  let total := weights.cost * scores.cost + weights.stability * scores.stability
    + weights.approval * scores.approval + weights.speed * scores.speed
    + weights.penalties * scores.penalties
  ({ scores with total := total }, weights)

/-! ## Orchestration (`generate_recommendations` minus persistence) -/

/-- `_get_optimal_tenor`. -/
def _get_optimal_tenor (application : ApplicationInfo)
    (product : LoanProductInfo) : ℤ :=
  if intTruthy application.tenor_months then application.tenor_months.getD 0
  else
    let min_term := pyOrInt product.min_term_months 12
    let max_term := pyOrInt product.max_term_months 360
    match application.repayment_strategy with
    | .UNCERTAIN => max_term
    | .EARLY_EXIT => max_term
    | .LONG_HOLD => max min_term (min 240 max_term)

/-- `_build_fee_structure`. -/
def _build_fee_structure (product : LoanProductInfo) : FeeStructure :=
  match product.fees_penalties with
  | none => {}
  | some fp =>
    { origination_fee_pct := fp.origination_fee_pct
      origination_min_vnd := fp.origination_min_vnd
      origination_max_vnd := fp.origination_max_vnd
      appraisal_fee_vnd := fp.appraisal_fee_vnd
      disbursement_fee_vnd := fp.disbursement_fee_vnd
      disbursement_fee_pct := fp.disbursement_fee_pct
      account_maintenance_fee_vnd := fp.account_maintenance_fee_vnd
      insurance_annual_pct := fp.insurance_annual_pct
      insurance_vnd := fp.insurance_vnd
      insurance_basis := fp.insurance_basis
      prepayment_schedule := fp.prepayment_schedule }

/-- `_build_prepay_info` (note: `is_partial` is `amount is not None`
while the recorded amount uses truthiness, so an amount of 0 yields
`is_partial = true` with no recorded amount, as in the source). -/
def _build_prepay_info (application : ApplicationInfo) : Option PrepaymentInfo :=
  if ¬ intTruthy application.expected_prepayment_month then none
  else some
    { prepayment_month := application.expected_prepayment_month
      prepayment_amount_vnd :=
        if ratTruthy application.expected_prepayment_amount_vnd then
          application.expected_prepayment_amount_vnd
        else none
      is_partial := application.expected_prepayment_amount_vnd.isSome }

/-- `_get_repayment_method`. -/
def _get_repayment_method (product : LoanProductInfo) : String :=
  match product.repayment with
  | none => "annuity"
  | some r => r.repayment_method.getD "annuity"

/-- `_get_grace_months`. -/
def _get_grace_months (product : LoanProductInfo) : ℤ :=
  match product.repayment with
  | none => 0
  | some r => r.grace_principal_months.getD 0

/-- The per-candidate evaluation of `generate_recommendations`: either the
strategy-adjusted scores and weights of a surviving product, or the
rejection reason list of a filtered one. -/
def engineEvalProduct (application : ApplicationInfo) (metrics : Metrics)
    (product : LoanProductInfo) (today : ℤ) :
    (Scores × Weights) ⊕ List String :=
  let user_input := _extract_user_input application
  let optimal_tenor := _get_optimal_tenor application product
  let effective_tenor :=
    if intTruthy application.tenor_months then application.tenor_months.getD 0
    else optimal_tenor
  let fr := _apply_hard_filters_with_tenor application metrics product
    user_input effective_tenor
  if fr.1 = false then Sum.inr fr.2
  else
    let rate_structure := _build_rate_structure product
    let fee_structure := _build_fee_structure product
    let prepay_info := _build_prepay_info application
    let horizon :=
      match application.repayment_strategy with
      | .EARLY_EXIT => pyOrInt application.planned_hold_months 36
      | _ => pyOrInt application.planned_hold_months effective_tenor
    let scenarios := stress_test_scenarios application.loan_amount
      effective_tenor rate_structure (_get_repayment_method product)
      (_get_grace_months product) (some fee_structure) prepay_info
      (some horizon)
    let base_scores := _calculate_multi_factor_score product application
      metrics user_input (some scenarios.base) (some scenarios.plus4) today
    Sum.inl (_calculate_strategy_adjusted_score base_scores application
      product (some scenarios.base) (some scenarios.plus4))

/-- The engine run on a product-catalog snapshot: the ranked survivor
scores (stably sorted by total, descending, top 5) and the rejection
reason lists, exactly the outputs `generate_recommendations` derives from
its inputs (persistence and response assembly aside). -/
def generate_recommendations_core (products : List LoanProductInfo)
    (application : ApplicationInfo) (metrics : Metrics) (today : ℤ) :
    List Scores × List (List String) :=
  let results := products.map
    (fun p => engineEvalProduct application metrics p today)
  let ranked := results.filterMap
    (fun r => match r with | Sum.inl sw => some sw.1 | Sum.inr _ => none)
  let rejected := results.filterMap
    (fun r => match r with | Sum.inl _ => none | Sum.inr reasons => some reasons)
  ((ranked.mergeSort (fun a b => decide (b.total ≤ a.total))).take 5, rejected)

/-! ## Concrete instances used in counterexamples and witnesses -/

/-- A 1-month loan at 12% fixed whose single month is a principal-grace
month. -/
def graceOnlyCfg : SchedCfg :=
  { tenor_months := 1
    rate_structure := { fixed_rate_pct := 12, fixed_months := 1 }
    grace_principal_months := 1 }

/-- A 2-month loan at an (absurd) -1200% fixed annual rate with a full
prepayment configured at month 2. -/
def negativeRateCfg : SchedCfg :=
  { tenor_months := 2
    rate_structure := { fixed_rate_pct := -1200, fixed_months := 2 }
    prepayment_info := some { prepayment_month := some 2 } }

/-- A 1-month fixed-rate loan at a 500,000% annual rate. -/
def extremeRateCfg : SchedCfg :=
  { tenor_months := 1
    rate_structure := { fixed_rate_pct := 500000, fixed_months := 1 } }

/-- Scenario 4's product: minimum income 15,000,000 VND, every other
check not applicable. -/
def scenario4Product : LoanProductInfo :=
  { eligibility_min_income_vnd := some 15000000 }

/-- Scenario 4's applicant. -/
def scenario4App : ApplicationInfo :=
  { purpose := "HOME_PURCHASE", loan_amount := 500000000 }

/-- Scenario 4's metrics: total income 10,000,000 VND. -/
def scenario4Metrics : Metrics := { total_income := some 10000000 }

/-- A product whose fixed period is 24 months (maximal fixed-period
sub-score). -/
def fullStabilityProduct : LoanProductInfo := { rate_fixed_months := some 24 }

/-- A cost summary with equal first-year and post-promo payments (zero
payment volatility). -/
def steadySummary : LoanCostSummary :=
  { total_interest := 0, total_fees := 0, total_insurance := 0
    total_cost_excluding_principal := 0, total_out_of_pocket := 0
    apr := 0, monthly_payment_first_12m := 100
    monthly_payment_post_promo := 100 }

/-- A product left entirely to defaults (SLA falls back to 30 days). -/
def defaultProduct : LoanProductInfo := {}

/-- An application with a disbursement deadline at day 1000 and a zero
loan amount (so the stress schedules are empty and every other score is
date-independent). -/
def deadlineApp : ApplicationInfo :=
  { loan_amount := 0, need_disbursement_by_date := some 1000 }


/-- A plain 2-month fixed-rate loan used as a witness configuration. -/
def witnessCfg : SchedCfg :=
  { tenor_months := 2
    rate_structure := { fixed_rate_pct := 12, fixed_months := 2 } }

/-- A 3-month fixed-rate loan with a 2% open-ended prepayment tier and a
full prepayment at month 2, used as a witness configuration. -/
def prepayWitnessCfg : SchedCfg :=
  { tenor_months := 3
    rate_structure := { fixed_rate_pct := 12, fixed_months := 3 }
    fee_structure := some
      { prepayment_schedule := [{ months_from := 1, months_to := none, fee_pct := 2 }] }
    prepayment_info := some { prepayment_month := some 2 } }

/-- A configured prepayment month in `[lo, tenor]`. -/
def prepayConfiguredIn (cfg : SchedCfg) (lo : ℤ) : Prop :=
  ∃ pi k, cfg.prepayment_info = some pi ∧ pi.prepayment_month = some k ∧
    lo ≤ k ∧ k ≤ cfg.tenor_months

/-! ## The exact IRR of the cashflow vector (claim C5) -/

/-- A month's total outflow as charged in `calculate_apr`'s cashflows. -/
def monthlyOutflow (e : MonthlyPayment) : ℚ :=
  e.payment + e.fees + e.insurance

/-- The NPV of a cashflow vector at a rational rate, in Horner form:
`npvAtQ x [c0, c1, ...] = c0 + c1/(1+x) + c2/(1+x)^2 + ...`. -/
def npvAtQ (x : ℚ) : List ℚ → ℚ
  | [] => 0
  | c :: rest => c + npvAtQ x rest / (1 + x)

/-- Modelled from the spec: the net present value `Σ c_t / (1+x)^t` of a
cashflow vector over the reals (Horner form); its root is the internal
rate of return that `calculate_irr` approximates. -/
noncomputable def npvAt (x : ℝ) : List ℚ → ℝ
  | [] => 0
  | c :: rest => (c : ℝ) + npvAt x rest / (1 + x)

/-- Nonnegativity requirements on the recurring-fee configuration. -/
def feeNonneg (cfg : SchedCfg) : Prop :=
  match cfg.fee_structure with
  | none => True
  | some fs =>
    0 ≤ fs.account_maintenance_fee_vnd ∧ 0 ≤ fs.insurance_vnd ∧
    0 ≤ fs.insurance_annual_pct ∧ 0 ≤ fs.property_value_vnd
/-! ## Helper simp lemmas for evaluating concrete runs -/

theorem string_annuity_ne_equal_principal :
    ("annuity" = "equal_principal") = False := by simp

theorem string_equal_principal_refl :
    ("equal_principal" = "equal_principal") = True := by simp

theorem string_on_balance_ne_on_property_value :
    ("on_balance" = "on_property_value") = False := by simp

/-! ## Claim C9: degenerate inputs -/

/-- C9: for every call of `generate_amortization_schedule` with
`principal ≤ 0` or `tenor_months ≤ 0`, the result is an empty schedule with
all running totals equal to 0 (and, the embedding being total, no exception
is raised). -/
theorem degenerate_inputs_yield_empty_schedule (principal : ℚ) (cfg : SchedCfg)
    (h : principal ≤ 0 ∨ cfg.tenor_months ≤ 0) :
    generate_amortization_schedule principal cfg =
      { payments := [], total_interest := 0, total_principal := 0,
        total_payments := 0, total_fees := 0, total_insurance := 0 } := by
  unfold generate_amortization_schedule
  rw [if_pos h]

/-- Witness for C9 at `principal = -5`, `tenor = 12`. -/
theorem degenerate_inputs_yield_empty_schedule_witness :
    ((-5 : ℚ) ≤ 0 ∨
      (({ tenor_months := 12, rate_structure := {} } : SchedCfg).tenor_months ≤ 0)) ∧
    generate_amortization_schedule (-5) { tenor_months := 12, rate_structure := {} } =
      { payments := [], total_interest := 0, total_principal := 0,
        total_payments := 0, total_fees := 0, total_insurance := 0 } :=
  ⟨Or.inl (by norm_num),
   degenerate_inputs_yield_empty_schedule (-5)
     { tenor_months := 12, rate_structure := {} } (Or.inl (by norm_num))⟩

/-! ## Claim C6: the IRR solver is total, bounded and clamped -/

/-- Every value `irrLoop` returns from an in-range carried rate stays in
`[-1/2, 1]`: each Newton iterate is clamped there before any return. -/
theorem irrLoop_mem_Icc (cashflows : List ℚ) :
    ∀ (fuel : ℕ) (rate : ℚ), -(1 / 2) ≤ rate → rate ≤ 1 →
      -(1 / 2) ≤ irrLoop cashflows fuel rate ∧ irrLoop cashflows fuel rate ≤ 1 := by
  intro fuel
  induction fuel with
  | zero =>
    intro rate h1 h2
    exact ⟨h1, h2⟩
  | succ n ih =>
    intro rate h1 h2
    simp only [irrLoop]
    split
    · exact ⟨h1, h2⟩
    · split
      · exact ⟨le_max_left _ _, max_le (by norm_num) (min_le_right _ _)⟩
      · exact ih _ (le_max_left _ _) (max_le (by norm_num) (min_le_right _ _))

/-- C6: for every cashflow vector, `calculate_irr` terminates within the
100-iteration budget (the embedding consumes explicit fuel) and returns a
monthly rate in `[-1/2, 1]`; on fuel exhaustion the last computed rate is
returned unchanged. -/
theorem calculate_irr_total_and_bounded (cashflows : List ℚ) :
    (-(1 / 2) ≤ calculate_irr cashflows ∧ calculate_irr cashflows ≤ 1) ∧
    calculate_irr cashflows =
      (if cashflows.length < 2 then 0 else irrLoop cashflows 100 (1 / 100)) ∧
    ∀ rate : ℚ, irrLoop cashflows 0 rate = rate := by
  refine ⟨?_, rfl, fun _ => rfl⟩
  unfold calculate_irr
  split
  · norm_num
  · exact irrLoop_mem_Icc cashflows 100 (1 / 100) (by norm_num) (by norm_num)

/-! ## Claim C1: counterexample (grace period covering the whole tenor) -/

/-- C1 counterexample: with `grace_principal_months = tenor_months = 1` the
final (and only) entry of the schedule generated for principal 100 has
`remaining_balance = 100 ≠ 0`, so the remaining balance does not reach 0 at
the final entry for every grace setting. -/
theorem final_balance_nonzero_under_full_grace :
    ((generate_amortization_schedule 100 graceOnlyCfg).payments.map
        (fun p => p.remaining_balance)).getLast? = some 100 ∧ (100 : ℚ) ≠ 0 := by
  constructor
  · norm_num [generate_amortization_schedule, graceOnlyCfg, amortRec,
      normalEntry, monthInterest, rawPrincipal, monthPayment, clampedPrincipal,
      postBalance, monthRate, prepayFires, RateStructure.get_rate_for_month,
      annuity_payment]
  · norm_num

/-! ## Claim C2: counterexample (extreme negative rate) -/

/-- C2 counterexample: with principal 100 > 0 and a prepayment configured
at month `k = 2 ≤ tenor = 2`, the generated schedule has 1 entry, not
`k = 2`: the -1200% annual rate makes month 1's principal portion reach the
whole balance, so the loop breaks before the prepayment month. -/
theorem prepayment_truncation_fails_at_negative_rate :
    (0 : ℚ) < 100 ∧ (1 : ℤ) ≤ 2 ∧ (2 : ℤ) ≤ negativeRateCfg.tenor_months ∧
    negativeRateCfg.prepayment_info =
      some { prepayment_month := some 2 } ∧
    (generate_amortization_schedule 100 negativeRateCfg).payments.length ≠ 2 := by
  refine ⟨by norm_num, by norm_num, by norm_num [negativeRateCfg], rfl, ?_⟩
  norm_num [generate_amortization_schedule, negativeRateCfg, amortRec,
    normalEntry, monthInterest, rawPrincipal, monthPayment, clampedPrincipal,
      postBalance, monthRate, prepayFires, RateStructure.get_rate_for_month,
    annuity_payment, string_annuity_ne_equal_principal]

/-! ## Claim C5: counterexample (IRR clamp at extreme nominal rate) -/

set_option maxHeartbeats 1600000 in
/-- The fully evaluated schedule of the extreme-rate loan. -/
theorem extremeRateCfg_schedule :
    generate_amortization_schedule 100 extremeRateCfg =
      { payments := [{ month := 1, interest := 125000 / 3, principal := 100,
                       payment := 125300 / 3, remaining_balance := 0, fees := 0,
                       insurance := 0, rate_applied := 5000, is_grace_period := false }],
        total_interest := 125000 / 3, total_principal := 100,
        total_payments := 125300 / 3, total_fees := 0, total_insurance := 0 } := by
  norm_num [generate_amortization_schedule, extremeRateCfg, amortRec,
    normalEntry, monthInterest, rawPrincipal, monthPayment, clampedPrincipal,
      postBalance, monthRate, prepayFires, RateStructure.get_rate_for_month,
    annuity_payment, string_annuity_ne_equal_principal]

set_option maxHeartbeats 3200000 in
/-- The IRR solver clamps to the upper bound 1 on the extreme-rate loan's
cashflows. -/
theorem extremeRateCfg_irr :
    calculate_irr [99, -(125300 / 3)] = 1 := by
  norm_num [calculate_irr, irrLoop, npvSum, npvDeriv, List.enum,
    List.enumFrom, min_def, max_def, abs]

set_option maxHeartbeats 1600000 in
/-- C5 counterexample: for the fixed-rate loan `extremeRateCfg` with
principal 100 and strictly positive upfront fees 1, the Newton iterate is
clamped at 1.0, so `calculate_apr` returns `2^12 - 1 = 4095`, which is
strictly below the nominal fixed annual rate `500000 / 100 = 5000` — the
claimed strict inequality fails. -/
theorem apr_not_above_nominal_at_extreme_rate :
    (0 : ℚ) < 1 ∧
    calculate_apr 100 (generate_amortization_schedule 100 extremeRateCfg) 1 0
      < extremeRateCfg.rate_structure.fixed_rate_pct / 100 := by
  refine ⟨by norm_num, ?_⟩
  rw [extremeRateCfg_schedule]
  have h : aprCashflows 100
      { payments := [{ month := 1, interest := 125000 / 3, principal := 100,
                       payment := 125300 / 3, remaining_balance := 0, fees := 0,
                       insurance := 0, rate_applied := 5000, is_grace_period := false }],
        total_interest := 125000 / 3, total_principal := 100,
        total_payments := 125300 / 3, total_fees := 0, total_insurance := 0 }
      1 0 = [99, -(125300 / 3)] := by
    norm_num [aprCashflows, List.enum, List.enumFrom]
  norm_num [calculate_apr, h, extremeRateCfg_irr, extremeRateCfg]

/-! ## Claim C7: eligibility filter -/

/-- C7: the eligibility filter passes iff its accumulated rejection-reason
list is empty, and on Scenario 4 (minimum income 15,000,000, applicant
income 10,000,000, all other applicable checks passing) the candidate is
rejected with the single — hence primary — reason `INCOME_BELOW_MIN`. -/
theorem filter_passes_iff_reasons_empty_and_income_scenario :
    (∀ (application : ApplicationInfo) (metrics : Metrics)
        (product : LoanProductInfo) (user_input : UserInput)
        (effective_tenor : ℤ),
      ((_apply_hard_filters_with_tenor application metrics product user_input
          effective_tenor).1 = true ↔
        (_apply_hard_filters_with_tenor application metrics product user_input
          effective_tenor).2 = [])) ∧
    _apply_hard_filters_with_tenor scenario4App scenario4Metrics
      scenario4Product {} 240 = (false, ["INCOME_BELOW_MIN"]) := by
  constructor
  · intro application metrics product user_input effective_tenor
    unfold _apply_hard_filters_with_tenor
    exact List.isEmpty_iff
  · norm_num [_apply_hard_filters_with_tenor, scenario4App, scenario4Metrics,
      scenario4Product, intTruthy, ratTruthy, strTruthy]

/-! ## Claim C4: factor score ranges (stability misses its clamp) -/

/-- C4 failing input: with a 24-month fixed period, zero payment
volatility and the default 50 cost-vs-stability preference, the stability
score evaluates to 135, outside the claimed `[0, 100]` range (every other
factor score is clamped explicitly; the stability blend alone is not). -/
theorem stability_score_exceeds_100_at_failing_input :
    _calculate_stability_score fullStabilityProduct (some steadySummary)
      (some steadySummary) {} = 135 ∧
    ¬ (_calculate_stability_score fullStabilityProduct (some steadySummary)
        (some steadySummary) {} ≤ 100) := by
  have h : _calculate_stability_score fullStabilityProduct (some steadySummary)
      (some steadySummary) {} = 135 := by
    norm_num [_calculate_stability_score, fullStabilityProduct, steadySummary]
  rw [h]
  norm_num

/-! ## Claim C8: determinism and the hidden `date.today()` input -/

/-- The speed score ignores the run date when no disbursement deadline is
given. -/
theorem speed_score_no_deadline (product : LoanProductInfo)
    (application : ApplicationInfo) (d1 d2 : ℤ)
    (h : application.need_disbursement_by_date = none) :
    _calculate_speed_score product application d1 =
      _calculate_speed_score product application d2 := by
  unfold _calculate_speed_score
  rw [h]

/-- C8 amended: the engine's output is a function of the application and
catalog snapshots together with the run date (`date.today()` read by the
speed score); in particular two runs on identical snapshots with no
disbursement deadline produce identical ranked scores and rejection
reason lists whatever their run dates. -/
theorem engine_deterministic_given_run_date (products : List LoanProductInfo)
    (application : ApplicationInfo) (metrics : Metrics) (d1 d2 : ℤ)
    (h : application.need_disbursement_by_date = none) :
    generate_recommendations_core products application metrics d1 =
      generate_recommendations_core products application metrics d2 := by
  have hprod : ∀ product : LoanProductInfo,
      engineEvalProduct application metrics product d1 =
        engineEvalProduct application metrics product d2 := by
    intro product
    unfold engineEvalProduct _calculate_multi_factor_score
    rw [speed_score_no_deadline product application d1 d2 h]
  unfold generate_recommendations_core
  rw [List.map_congr_left fun p _ => hprod p]

/-- C8 counterexample: on identical snapshots (one default product, an
application with a disbursement deadline) the engine's ranked output
differs between run dates 970 and 963, so the output is not a function of
the snapshots alone. -/
theorem engine_output_depends_on_run_date :
    deadlineApp.need_disbursement_by_date = some 1000 ∧
    generate_recommendations_core [defaultProduct] deadlineApp {} 970 ≠
      generate_recommendations_core [defaultProduct] deadlineApp {} 963 := by
  constructor
  · rfl
  · norm_num [generate_recommendations_core, engineEvalProduct,
      _extract_user_input, _get_optimal_tenor, _apply_hard_filters_with_tenor,
      _build_rate_structure, _build_fee_structure, _build_prepay_info,
      _get_repayment_method, _get_grace_months, stress_test_scenarios,
      stressScenario, generate_amortization_schedule, calculate_apr,
      _calculate_upfront_fees, _calculate_multi_factor_score,
      _calculate_cost_score, _calculate_stability_score,
      _calculate_approval_score, _calculate_speed_score,
      _calculate_penalties_score, _calculate_strategy_adjusted_score,
      deadlineApp, defaultProduct, intTruthy, ratTruthy, strTruthy, pyOrInt,
      List.mergeSort_singleton, List.filterMap_cons, List.filterMap_nil,
      Scores.mk.injEq]


/-! ## Basic annuity-payment lemmas -/

/-- The annuity payment is never negative. -/
theorem annuity_payment_nonneg (P r : ℚ) (m : ℤ) : 0 ≤ annuity_payment P r m := by
  unfold annuity_payment
  split
  · exact le_refl 0
  · next h =>
    push_neg at h
    obtain ⟨hP, hm⟩ := h
    dsimp only
    split
    · exact div_nonneg hP.le (by exact_mod_cast hm.le)
    · next hmr =>
      have hmr0 : (0 : ℚ) ≤ max r 0 / 12 := by positivity
      have hmrpos : (0 : ℚ) < max r 0 / 12 := lt_of_le_of_ne hmr0 (Ne.symm hmr)
      have hfac : (1 : ℚ) < (1 + max r 0 / 12) ^ m.toNat := by
        refine one_lt_pow₀ (by linarith) ?_
        omega
      apply div_nonneg
      · have := mul_nonneg (mul_nonneg hP.le hmr0)
          (by linarith : (0:ℚ) ≤ (1 + max r 0 / 12) ^ m.toNat)
        linarith
      · linarith

/-- A month's interest never exceeds the annuity payment on the same
balance. -/
theorem interest_le_annuity_payment (P r : ℚ) (m : ℤ) (hP : 0 ≤ P)
    (hm : 1 ≤ m) : P * (r / 12) ≤ annuity_payment P r m := by
  rcases le_or_lt r 0 with hr | hr
  · have h1 : P * (r / 12) ≤ 0 :=
      mul_nonpos_of_nonneg_of_nonpos hP (by linarith)
    exact h1.trans (annuity_payment_nonneg P r m)
  · rcases eq_or_lt_of_le hP with hP0 | hP0
    · rw [← hP0]
      simpa using annuity_payment_nonneg 0 r m
    · unfold annuity_payment
      rw [if_neg (by push_neg; constructor <;> linarith)]
      have hmax : max r 0 = r := max_eq_left hr.le
      dsimp only
      rw [hmax, if_neg (by positivity)]
      set f := (1 + r / 12) ^ m.toNat with hf
      have hf1 : (1 : ℚ) < f := one_lt_pow₀ (by linarith) (by omega)
      rw [le_div_iff₀ (by linarith)]
      nlinarith [mul_nonneg hP (by linarith : (0:ℚ) ≤ r / 12)]

/-- With one month to go the annuity payment is the balance plus one
month's (rate-clamped) interest. -/
theorem annuity_payment_one (P r : ℚ) (hP : 0 < P) :
    annuity_payment P r 1 = P * (1 + max r 0 / 12) := by
  unfold annuity_payment
  rw [if_neg (by push_neg; constructor <;> [linarith; norm_num])]
  dsimp only
  rcases eq_or_ne (max r 0 / 12) 0 with h0 | h0
  · rw [if_pos h0, h0]
    norm_num
  · rw [if_neg h0]
    have hne : max r 0 ≠ 0 := by
      intro hh
      exact h0 (by rw [hh]; norm_num)
    have h1 : (1 : ℤ).toNat = 1 := rfl
    rw [h1, pow_one]
    have h12 : (1 : ℚ) + max r 0 / 12 - 1 = max r 0 / 12 := by ring
    rw [h12]
    field_simp
    ring

/-! ## Per-month balance facts -/

/-- The raw principal portion is nonnegative within the loop range. -/
theorem rawPrincipal_nonneg (cfg : SchedCfg) (month : ℤ) (remaining rate : ℚ)
    (h0 : 0 ≤ remaining) (hm : month ≤ cfg.tenor_months) :
    0 ≤ rawPrincipal cfg month remaining rate
      (monthInterest cfg month remaining rate) := by
  unfold rawPrincipal monthInterest
  have hden : (0 : ℚ) ≤ ((cfg.tenor_months - month + 1 : ℤ) : ℚ) := by
    exact_mod_cast (by omega : (0:ℤ) ≤ cfg.tenor_months - month + 1)
  split_ifs with hg heq hig
  · exact le_refl 0
  · exact div_nonneg h0 hden
  · simpa using annuity_payment_nonneg remaining rate (cfg.tenor_months - month + 1)
  · exact sub_nonneg.mpr (interest_le_annuity_payment remaining rate
      (cfg.tenor_months - month + 1) h0 (by omega))

/-- The post-month balance is clamped at zero, so it is never negative. -/
theorem postBalance_nonneg (cfg : SchedCfg) (month : ℤ) (remaining rate : ℚ) :
    0 ≤ postBalance cfg month remaining rate :=
  le_max_left 0 _

/-- Within the loop range the balance never increases. -/
theorem postBalance_le (cfg : SchedCfg) (month : ℤ) (remaining rate : ℚ)
    (h0 : 0 ≤ remaining) (hm : month ≤ cfg.tenor_months) :
    postBalance cfg month remaining rate ≤ remaining := by
  unfold postBalance clampedPrincipal
  apply max_le h0
  apply sub_le_self
  exact le_min (rawPrincipal_nonneg cfg month remaining rate h0 hm) h0

/-! ## Balance invariants of the scheduler loop -/

/-- Along any run of the loop started inside the month range, every
recorded balance is nonnegative, the first recorded balance is at most the
entering balance, and consecutive balances are non-increasing. -/
theorem amortRec_balance_invariants (cfg : SchedCfg) :
    ∀ (fuel : ℕ) (month : ℤ) (remaining rate : ℚ),
      0 ≤ remaining → month + fuel = cfg.tenor_months + 1 →
      (∀ e ∈ amortRec cfg fuel month remaining rate, 0 ≤ e.remaining_balance) ∧
      (∀ e ∈ (amortRec cfg fuel month remaining rate).head?,
        e.remaining_balance ≤ remaining) ∧
      List.Chain' (fun a b => b.remaining_balance ≤ a.remaining_balance)
        (amortRec cfg fuel month remaining rate) := by
  intro fuel
  induction fuel with
  | zero =>
    intro month remaining rate h0 hmf
    simp [amortRec]
  | succ n ih =>
    intro month remaining rate h0 hmf
    rw [amortRec]
    split
    · refine ⟨?_, ?_, ?_⟩
      · intro e he
        rw [List.mem_singleton] at he
        subst he
        exact le_refl 0
      · intro e he
        rw [List.head?_cons, Option.mem_some_iff] at he
        subst he
        exact h0
      · simp
    · next hp =>
      have hmonth : month ≤ cfg.tenor_months := by omega
      have hrb0 : 0 ≤ (normalEntry cfg month remaining
          (monthRate cfg month rate)).remaining_balance :=
        postBalance_nonneg cfg month remaining _
      have hrble : (normalEntry cfg month remaining
          (monthRate cfg month rate)).remaining_balance ≤ remaining :=
        postBalance_le cfg month remaining _ h0 hmonth
      by_cases hz : (normalEntry cfg month remaining
          (monthRate cfg month rate)).remaining_balance ≤ 0
      · rw [if_pos hz]
        refine ⟨?_, ?_, ?_⟩
        · intro e he
          rw [List.mem_singleton] at he
          subst he
          exact hrb0
        · intro e he
          rw [List.head?_cons, Option.mem_some_iff] at he
          subst he
          exact hrble
        · simp
      · rw [if_neg hz]
        obtain ⟨ih1, ih2, ih3⟩ := ih (month + 1)
          (normalEntry cfg month remaining
            (monthRate cfg month rate)).remaining_balance
          (monthRate cfg month rate) hrb0 (by omega)
        refine ⟨?_, ?_, ?_⟩
        · intro e he
          rcases List.mem_cons.mp he with h | h
          · subst h
            exact hrb0
          · exact ih1 e h
        · intro e he
          rw [List.head?_cons, Option.mem_some_iff] at he
          subst he
          exact hrble
        · rw [List.chain'_cons']
          exact ⟨ih2, ih3⟩

/-- In the last month of the tenor, outside principal grace, the whole
balance is paid and the recorded balance is exactly 0. -/
theorem postBalance_zero_at_last (cfg : SchedCfg) (month : ℤ)
    (remaining rate : ℚ) (h0 : 0 < remaining)
    (hmonth : cfg.tenor_months - month + 1 = 1)
    (hg : ¬ month ≤ cfg.grace_principal_months) :
    postBalance cfg month remaining rate = 0 := by
  have hraw : remaining ≤ rawPrincipal cfg month remaining rate
      (monthInterest cfg month remaining rate) := by
    unfold rawPrincipal monthInterest
    rw [if_neg hg, hmonth]
    have hmax0 : (0 : ℚ) ≤ max rate 0 / 12 := by positivity
    split_ifs with heq hig
    · push_cast
      norm_num
    · rw [annuity_payment_one remaining rate h0]
      nlinarith
    · rw [annuity_payment_one remaining rate h0]
      have : remaining * (rate / 12) ≤ remaining * (max rate 0 / 12) := by
        apply mul_le_mul_of_nonneg_left ?_ h0.le
        have : rate ≤ max rate 0 := le_max_left rate 0
        linarith
      nlinarith
  unfold postBalance clampedPrincipal
  rw [min_eq_right hraw]
  simp

/-- Under the amended side condition, the loop ends with balance exactly
0: each break records a clamped-zero balance, the prepayment branch
records 0, and the final month pays the whole balance. -/
theorem amortRec_last_balance_zero (cfg : SchedCfg) :
    ∀ (fuel : ℕ) (month : ℤ) (remaining rate : ℚ),
      0 < remaining → month + fuel = cfg.tenor_months + 1 → 1 ≤ fuel →
      (cfg.grace_principal_months < cfg.tenor_months ∨
        prepayConfiguredIn cfg month) →
      ∃ e, (amortRec cfg fuel month remaining rate).getLast? = some e ∧
        e.remaining_balance = 0 := by
  intro fuel
  induction fuel with
  | zero =>
    intro month remaining rate h0 hmf hfuel hside
    omega
  | succ n ih =>
    intro month remaining rate h0 hmf hfuel hside
    rw [amortRec]
    split
    · exact ⟨_, List.getLast?_singleton _, rfl⟩
    · next hp =>
      have hrb0 : 0 ≤ (normalEntry cfg month remaining
          (monthRate cfg month rate)).remaining_balance :=
        postBalance_nonneg cfg month remaining _
      by_cases hz : (normalEntry cfg month remaining
          (monthRate cfg month rate)).remaining_balance ≤ 0
      · rw [if_pos hz]
        exact ⟨_, List.getLast?_singleton _, le_antisymm hz hrb0⟩
      · rw [if_neg hz]
        have hgz : ¬ month ≤ cfg.grace_principal_months ∨ month < cfg.tenor_months := by
          rcases hside with hgr | ⟨pi, k, hpi, hpm, hlo, hhi⟩
          · rcases lt_or_le month cfg.tenor_months with hlt | hge
            · exact Or.inr hlt
            · left
              omega
          · rcases lt_or_le month cfg.tenor_months with hlt | hge
            · exact Or.inr hlt
            · exfalso
              apply hp
              have hk : k = month := by omega
              unfold prepayFires
              rw [hpi]
              dsimp only
              rw [hpm, hk]
        rcases Nat.eq_zero_or_pos n with hn0 | hnpos
        · exfalso
          apply hz
          subst hn0
          have hmonth1 : cfg.tenor_months - month + 1 = 1 := by omega
          have hg : ¬ month ≤ cfg.grace_principal_months := by
            rcases hgz with h | h
            · exact h
            · omega
          have := postBalance_zero_at_last cfg month remaining
            (monthRate cfg month rate) h0 hmonth1 hg
          show (normalEntry cfg month remaining
            (monthRate cfg month rate)).remaining_balance ≤ 0
          unfold normalEntry
          dsimp only
          rw [this]
        · have hside2 : cfg.grace_principal_months < cfg.tenor_months ∨
              prepayConfiguredIn cfg (month + 1) := by
            rcases hside with hgr | ⟨pi, k, hpi, hpm, hlo, hhi⟩
            · exact Or.inl hgr
            · right
              refine ⟨pi, k, hpi, hpm, ?_, hhi⟩
              rcases eq_or_lt_of_le hlo with hk | hk
              · exfalso
                apply hp
                unfold prepayFires
                rw [hpi]
                dsimp only
                rw [hpm, ← hk]
              · omega
          obtain ⟨e, hlast, hzero⟩ := ih (month + 1)
            (normalEntry cfg month remaining
              (monthRate cfg month rate)).remaining_balance
            (monthRate cfg month rate)
            (lt_of_le_of_ne hrb0 (fun hh => hz (le_of_eq hh.symm)))
            (by omega) (by omega) hside2
          rcases hrest : amortRec cfg n (month + 1)
              (normalEntry cfg month remaining
                (monthRate cfg month rate)).remaining_balance
              (monthRate cfg month rate) with _ | ⟨b, t⟩
          · rw [hrest] at hlast
            simp at hlast
          · rw [hrest] at hlast
            refine ⟨e, ?_, hzero⟩
            rw [List.getLast?_cons_cons]
            exact hlast

/-- C1 amended: remaining balances are never negative and non-increasing
for every input, and the final entry's balance is exactly 0 provided the
principal grace does not cover the whole tenor or a prepayment is
configured inside the tenor. -/
theorem remaining_balance_monotone_nonneg_and_final_zero (P : ℚ)
    (cfg : SchedCfg) :
    (∀ e ∈ (generate_amortization_schedule P cfg).payments,
      0 ≤ e.remaining_balance) ∧
    List.Chain' (fun a b => b.remaining_balance ≤ a.remaining_balance)
      (generate_amortization_schedule P cfg).payments ∧
    (0 < P → 0 < cfg.tenor_months →
      (cfg.grace_principal_months < cfg.tenor_months ∨ prepayConfiguredIn cfg 1) →
      ∃ e, (generate_amortization_schedule P cfg).payments.getLast? = some e ∧
        e.remaining_balance = 0) := by
  unfold generate_amortization_schedule
  split
  · next h =>
    refine ⟨by simp, by simp, ?_⟩
    intro hP htenor hside
    exfalso
    rcases h with h | h
    · linarith
    · omega
  · next h =>
    push_neg at h
    obtain ⟨hP, htenor⟩ := h
    dsimp only
    obtain ⟨h1, h2, h3⟩ := amortRec_balance_invariants cfg cfg.tenor_months.toNat
      1 P (cfg.rate_structure.get_rate_for_month 1 cfg.scenario_bump)
      hP.le (by omega)
    refine ⟨h1, h3, ?_⟩
    intro _ _ hside
    exact amortRec_last_balance_zero cfg cfg.tenor_months.toNat 1 P
      (cfg.rate_structure.get_rate_for_month 1 cfg.scenario_bump)
      hP (by omega) (by omega) hside

/-- Witness for the amended C1 at a concrete 2-month fixed-rate loan. -/
theorem remaining_balance_monotone_nonneg_and_final_zero_witness :
    (0 : ℚ) < 100 ∧ (0 : ℤ) < witnessCfg.tenor_months ∧
    witnessCfg.grace_principal_months < witnessCfg.tenor_months ∧
    (∃ e, (generate_amortization_schedule 100 witnessCfg).payments.getLast?
        = some e ∧ e.remaining_balance = 0) := by
  refine ⟨by norm_num, by norm_num [witnessCfg], by norm_num [witnessCfg], ?_⟩
  exact (remaining_balance_monotone_nonneg_and_final_zero 100 witnessCfg).2.2
    (by norm_num) (by norm_num [witnessCfg]) (Or.inl (by norm_num [witnessCfg]))

/-! ## Strict positivity of the balance before the prepayment month -/

/-- With a nonnegative rate and at least two months remaining, the annuity
month's principal portion is strictly below the balance. -/
theorem annuity_principal_lt (P r : ℚ) (m : ℤ) (hP : 0 < P) (hr : 0 ≤ r)
    (hm : 2 ≤ m) : annuity_payment P r m - P * (r / 12) < P := by
  unfold annuity_payment
  rw [if_neg (by push_neg; constructor <;> linarith)]
  dsimp only
  have hmax : max r 0 = r := max_eq_left hr
  rw [hmax]
  by_cases h0 : r / 12 = 0
  · rw [if_pos h0, h0]
    have hm2 : (2 : ℚ) ≤ (m : ℚ) := by exact_mod_cast hm
    have hlt : P / (m : ℚ) < P := by
      rw [div_lt_iff (by linarith)]
      nlinarith
    linarith
  · rw [if_neg h0]
    have hmrpos : 0 < r / 12 := lt_of_le_of_ne (by positivity) (Ne.symm h0)
    set f := (1 + r / 12) ^ m.toNat with hf
    have hflt : 1 + r / 12 < f := by
      have h2 : 2 ≤ m.toNat := by omega
      calc 1 + r / 12 < (1 + r / 12) ^ 2 := by nlinarith
        _ ≤ (1 + r / 12) ^ m.toNat := pow_le_pow_right (by linarith) h2
    have hlt : P * (r / 12) * f / (f - 1) < P + P * (r / 12) := by
      rw [div_lt_iff (by linarith)]
      nlinarith
    linarith

/-- `monthRate` preserves nonnegativity when every resolvable rate is
nonnegative. -/
theorem monthRate_nonneg (cfg : SchedCfg) (month : ℤ) (rate : ℚ)
    (hr : ∀ m, 0 ≤ cfg.rate_structure.get_rate_for_month m cfg.scenario_bump)
    (h : 0 ≤ rate) : 0 ≤ monthRate cfg month rate := by
  unfold monthRate
  dsimp only
  split
  · exact hr month
  · exact h

/-- With a nonnegative rate, no interest grace, and at least two months
remaining, the month leaves a strictly positive balance. -/
theorem postBalance_pos (cfg : SchedCfg) (month : ℤ) (remaining rate : ℚ)
    (h0 : 0 < remaining) (hrate : 0 ≤ rate)
    (hig : cfg.grace_interest_months ≤ 0) (hmonth1 : 1 ≤ month)
    (hm2 : month + 1 ≤ cfg.tenor_months) :
    0 < postBalance cfg month remaining rate := by
  unfold postBalance clampedPrincipal rawPrincipal monthInterest
  rw [if_neg (by omega : ¬ month ≤ cfg.grace_interest_months)]
  split_ifs with hg heq
  · rw [min_eq_left h0.le, sub_zero]
    exact lt_max_of_lt_right h0
  · have hden : (2 : ℚ) ≤ ((cfg.tenor_months - month + 1 : ℤ) : ℚ) := by
      exact_mod_cast (by omega : (2:ℤ) ≤ cfg.tenor_months - month + 1)
    have hraw : remaining / ((cfg.tenor_months - month + 1 : ℤ) : ℚ) < remaining := by
      rw [div_lt_iff (by linarith)]
      nlinarith
    rw [min_eq_left hraw.le]
    exact lt_max_of_lt_right (by linarith)
  · have hlt := annuity_principal_lt remaining rate
      (cfg.tenor_months - month + 1) h0 hrate (by omega)
    rw [min_eq_left hlt.le]
    exact lt_max_of_lt_right (by linarith)

/-! ## The run of the loop up to a configured prepayment month -/

/-- Under nonnegative rates and no interest grace, a loop started at
`month ≤ k` (the configured prepayment month, inside the tenor) runs
exactly the months `month..k` and ends with the prepayment entry of
month `k` on a strictly positive balance. -/
theorem amortRec_prepay_run (cfg : SchedCfg) (pi : PrepaymentInfo) (k : ℤ)
    (hpi : cfg.prepayment_info = some pi) (hpm : pi.prepayment_month = some k)
    (hr : ∀ m, 0 ≤ cfg.rate_structure.get_rate_for_month m cfg.scenario_bump)
    (hig : cfg.grace_interest_months ≤ 0) (hk : k ≤ cfg.tenor_months) :
    ∀ (fuel : ℕ) (month : ℤ) (remaining rate : ℚ),
      0 < remaining → 0 ≤ rate → month + fuel = cfg.tenor_months + 1 →
      1 ≤ month → month ≤ k →
      (amortRec cfg fuel month remaining rate).length = (k - month + 1).toNat ∧
      ∃ B r2, 0 < B ∧
        (amortRec cfg fuel month remaining rate).getLast? =
          some (prepayEntry cfg k B r2) := by
  intro fuel
  induction fuel with
  | zero =>
    intro month remaining rate h0 hrate hmf hm1 hmk
    omega
  | succ n ih =>
    intro month remaining rate h0 hrate hmf hm1 hmk
    rw [amortRec]
    by_cases hmkeq : month = k
    · have hfires : prepayFires cfg month := by
        unfold prepayFires
        rw [hpi]
        dsimp only
        rw [hpm, hmkeq]
      rw [if_pos hfires]
      subst hmkeq
      refine ⟨by simp, remaining, rate, h0, ?_⟩
      rw [List.getLast?_singleton]
    · have hfires : ¬ prepayFires cfg month := by
        unfold prepayFires
        rw [hpi]
        dsimp only
        rw [hpm]
        intro hcontra
        exact hmkeq (Option.some.inj hcontra).symm
      rw [if_neg hfires]
      have hrate2 : 0 ≤ monthRate cfg month rate :=
        monthRate_nonneg cfg month rate hr hrate
      have hpos : 0 < postBalance cfg month remaining (monthRate cfg month rate) :=
        postBalance_pos cfg month remaining (monthRate cfg month rate) h0
          hrate2 hig (by omega) (by omega)
      have hz : ¬ (normalEntry cfg month remaining
          (monthRate cfg month rate)).remaining_balance ≤ 0 :=
        not_le.mpr hpos
      rw [if_neg hz]
      obtain ⟨ihlen, B, r2, hB, hlast⟩ := ih (month + 1)
        (normalEntry cfg month remaining
          (monthRate cfg month rate)).remaining_balance
        (monthRate cfg month rate) hpos hrate2 (by omega) (by omega) (by omega)
      constructor
      · rw [List.length_cons, ihlen]
        omega
      · refine ⟨B, r2, hB, ?_⟩
        rcases hrest : amortRec cfg n (month + 1)
            (normalEntry cfg month remaining
              (monthRate cfg month rate)).remaining_balance
            (monthRate cfg month rate) with _ | ⟨b, t⟩
        · rw [hrest] at hlast
          simp at hlast
        · rw [hrest] at hlast
          rw [List.getLast?_cons_cons]
          exact hlast

/-- The scheduler reads the prepayment configuration only through its
month: replacing the configured `PrepaymentInfo` by any other with the
same month leaves the loop's output unchanged. -/
theorem amortRec_prepay_month_only (cfg : SchedCfg) (pi pi2 : PrepaymentInfo)
    (hpi : cfg.prepayment_info = some pi)
    (hsame : pi2.prepayment_month = pi.prepayment_month) :
    ∀ (fuel : ℕ) (month : ℤ) (remaining rate : ℚ),
      amortRec { cfg with prepayment_info := some pi2 } fuel month remaining rate
        = amortRec cfg fuel month remaining rate := by
  intro fuel
  induction fuel with
  | zero => intro month remaining rate; rfl
  | succ n ih =>
    intro month remaining rate
    rw [amortRec, amortRec]
    have hfires : prepayFires { cfg with prepayment_info := some pi2 } month ↔
        prepayFires cfg month := by
      unfold prepayFires
      rw [hpi]
      dsimp only
      rw [hsame]
    by_cases hf : prepayFires cfg month
    · rw [if_pos hf, if_pos (hfires.mpr hf)]
      rfl
    · rw [if_neg hf, if_neg (fun hh => hf (hfires.mp hh))]
      have hM : monthRate { cfg with prepayment_info := some pi2 } month rate
          = monthRate cfg month rate := rfl
      have hN : normalEntry { cfg with prepayment_info := some pi2 } month
          remaining (monthRate cfg month rate)
          = normalEntry cfg month remaining (monthRate cfg month rate) := rfl
      rw [hM, hN, ih]

/-- C2 amended: with nonnegative applied rates and no interest grace, a
prepayment configured at month `k ∈ [1, tenor]` truncates the schedule of
a positive-principal loan to exactly `k` entries, the final entry paying
the whole entering balance with the tiered prepayment fee and zero
balance; and the scheduler ignores everything in the prepayment
configuration but the month (in particular `is_partial` and the partial
amount). -/
theorem prepayment_truncates_to_k_entries (P : ℚ) (cfg : SchedCfg)
    (pi : PrepaymentInfo) (k : ℤ) (hP : 0 < P)
    (hpi : cfg.prepayment_info = some pi)
    (hpm : pi.prepayment_month = some k) (hk1 : 1 ≤ k)
    (hk2 : k ≤ cfg.tenor_months)
    (hr : ∀ m, 0 ≤ cfg.rate_structure.get_rate_for_month m cfg.scenario_bump)
    (hig : cfg.grace_interest_months ≤ 0) :
    (generate_amortization_schedule P cfg).payments.length = k.toNat ∧
    (∃ e, (generate_amortization_schedule P cfg).payments.getLast? = some e ∧
      e.month = k ∧ e.remaining_balance = 0 ∧ e.interest = 0 ∧
      0 < e.principal ∧
      e.fees = _calculate_prepayment_fee e.principal k cfg.tiers ∧
      e.payment = e.principal + e.fees) ∧
    (∀ pi2 : PrepaymentInfo, pi2.prepayment_month = some k →
      generate_amortization_schedule P { cfg with prepayment_info := some pi2 }
        = generate_amortization_schedule P cfg) := by
  have hgen : ¬ (P ≤ 0 ∨ cfg.tenor_months ≤ 0) := by
    push_neg
    constructor
    · exact hP
    · omega
  refine ⟨?_, ?_, ?_⟩
  · unfold generate_amortization_schedule
    rw [if_neg hgen]
    dsimp only
    have := (amortRec_prepay_run cfg pi k hpi hpm hr hig hk2
      cfg.tenor_months.toNat 1 P
      (cfg.rate_structure.get_rate_for_month 1 cfg.scenario_bump)
      hP (hr 1) (by omega) (by norm_num) hk1).1
    rw [this]
    omega
  · unfold generate_amortization_schedule
    rw [if_neg hgen]
    dsimp only
    obtain ⟨B, r2, hB, hlast⟩ := (amortRec_prepay_run cfg pi k hpi hpm hr hig
      hk2 cfg.tenor_months.toNat 1 P
      (cfg.rate_structure.get_rate_for_month 1 cfg.scenario_bump)
      hP (hr 1) (by omega) (by norm_num) hk1).2
    refine ⟨prepayEntry cfg k B r2, hlast, rfl, rfl, rfl, hB, rfl, rfl⟩
  · intro pi2 hpm2
    unfold generate_amortization_schedule
    rw [if_neg hgen]
    have hcond : ¬ (P ≤ 0 ∨
        ({ cfg with prepayment_info := some pi2 } : SchedCfg).tenor_months ≤ 0) := hgen
    rw [if_neg hcond]
    have hrec := amortRec_prepay_month_only cfg pi pi2 hpi
      (by rw [hpm2, hpm]) cfg.tenor_months.toNat 1 P
      (cfg.rate_structure.get_rate_for_month 1 cfg.scenario_bump)
    dsimp only
    rw [hrec]

/-- Witness for the amended C2 at `prepayWitnessCfg` (k = 2, principal
100). -/
theorem prepayment_truncates_to_k_entries_witness :
    (0 : ℚ) < 100 ∧ (1 : ℤ) ≤ 2 ∧ (2 : ℤ) ≤ prepayWitnessCfg.tenor_months ∧
    ((generate_amortization_schedule 100 prepayWitnessCfg).payments.length
        = (2 : ℤ).toNat ∧
      (∃ e, (generate_amortization_schedule 100 prepayWitnessCfg).payments.getLast?
          = some e ∧
        e.month = 2 ∧ e.remaining_balance = 0 ∧ e.interest = 0 ∧
        0 < e.principal ∧
        e.fees = _calculate_prepayment_fee e.principal 2 prepayWitnessCfg.tiers ∧
        e.payment = e.principal + e.fees) ∧
      (∀ pi2 : PrepaymentInfo, pi2.prepayment_month = some 2 →
        generate_amortization_schedule 100
            { prepayWitnessCfg with prepayment_info := some pi2 }
          = generate_amortization_schedule 100 prepayWitnessCfg)) := by
  refine ⟨by norm_num, by norm_num, by norm_num [prepayWitnessCfg], ?_⟩
  exact prepayment_truncates_to_k_entries 100 prepayWitnessCfg
    { prepayment_month := some 2 } 2 (by norm_num) rfl rfl (by norm_num)
    (by norm_num [prepayWitnessCfg])
    (by
      intro m
      unfold RateStructure.get_rate_for_month
      split <;> norm_num [prepayWitnessCfg])
    (by norm_num [prepayWitnessCfg])

/-! ## The shape of the prepayment entry (claim C10) -/

/-- Every entry of the schedule carrying the configured prepayment month
is the prepayment entry: zero interest, zero final balance, fees equal to
the tiered fee on the balance paid, and payment equal to that balance plus
the fee. -/
theorem amortRec_month_k_entry_shape (cfg : SchedCfg) (pi : PrepaymentInfo)
    (k : ℤ) (hpi : cfg.prepayment_info = some pi)
    (hpm : pi.prepayment_month = some k) :
    ∀ (fuel : ℕ) (month : ℤ) (remaining rate : ℚ),
      ∀ e ∈ amortRec cfg fuel month remaining rate, e.month = k →
        e.interest = 0 ∧ e.remaining_balance = 0 ∧
        e.fees = _calculate_prepayment_fee e.principal k cfg.tiers ∧
        e.payment = e.principal + e.fees := by
  intro fuel
  induction fuel with
  | zero =>
    intro month remaining rate e he
    simp [amortRec] at he
  | succ n ih =>
    intro month remaining rate e he hek
    rw [amortRec] at he
    split at he
    · next hf =>
      rw [List.mem_singleton] at he
      subst he
      have hmk : month = k := by
        unfold prepayFires at hf
        rw [hpi] at hf
        dsimp only at hf
        rw [hpm] at hf
        exact (Option.some.inj hf).symm
      subst hmk
      exact ⟨rfl, rfl, rfl, rfl⟩
    · next hf =>
      rcases List.mem_cons.mp he with hhead | htail
      · exfalso
        apply hf
        have : month = k := by
          rw [← hek, hhead]
          rfl
        unfold prepayFires
        rw [hpi]
        dsimp only
        rw [hpm, this]
      · revert htail
        split
        · intro htail
          simp at htail
        · intro htail
          exact ih (month + 1) _ _ e htail hek

/-- Entries whose interest vanishes at month `k` contribute nothing: the
interest sum equals the sum over the other months. -/
theorem sum_interest_filter_ne (k : ℤ) :
    ∀ l : List MonthlyPayment, (∀ e ∈ l, e.month = k → e.interest = 0) →
      (l.map (·.interest)).sum =
        ((l.filter (fun e => decide (e.month ≠ k))).map (·.interest)).sum := by
  intro l
  induction l with
  | nil => simp
  | cons a t ih =>
    intro h
    have ht := ih (fun e he hek => h e (List.mem_cons_of_mem a he) hek)
    by_cases hk : a.month = k
    · rw [List.map_cons, List.sum_cons, h a (List.mem_cons_self a t) hk,
        List.filter_cons]
      simp [hk, ht]
    · rw [List.map_cons, List.sum_cons, List.filter_cons]
      simp [hk, ht]

/-- C10: with a prepayment configured at month `k`, any schedule entry at
month `k` (the terminal prepayment entry, when the loop reaches it) has
zero interest and pays exactly the remaining balance plus the tiered fee,
and the schedule's total interest is the sum over the other months only:
no interest is charged for the payoff month. -/
theorem prepayment_entry_charges_no_interest (P : ℚ) (cfg : SchedCfg)
    (pi : PrepaymentInfo) (k : ℤ) (hpi : cfg.prepayment_info = some pi)
    (hpm : pi.prepayment_month = some k) :
    (∀ e ∈ (generate_amortization_schedule P cfg).payments, e.month = k →
      e.interest = 0 ∧ e.remaining_balance = 0 ∧
      e.fees = _calculate_prepayment_fee e.principal k cfg.tiers ∧
      e.payment = e.principal + e.fees) ∧
    (generate_amortization_schedule P cfg).total_interest =
      (((generate_amortization_schedule P cfg).payments.filter
        (fun e => decide (e.month ≠ k))).map (·.interest)).sum := by
  have hmem : ∀ e ∈ (generate_amortization_schedule P cfg).payments,
      e.month = k →
      e.interest = 0 ∧ e.remaining_balance = 0 ∧
      e.fees = _calculate_prepayment_fee e.principal k cfg.tiers ∧
      e.payment = e.principal + e.fees := by
    intro e he hek
    unfold generate_amortization_schedule at he
    split at he
    · simp at he
    · exact amortRec_month_k_entry_shape cfg pi k hpi hpm
        cfg.tenor_months.toNat 1 P
        (cfg.rate_structure.get_rate_for_month 1 cfg.scenario_bump) e he hek
  refine ⟨hmem, ?_⟩
  have hsum := sum_interest_filter_ne k
    (generate_amortization_schedule P cfg).payments
    (fun e he hek => (hmem e he hek).1)
  rw [← hsum]
  unfold generate_amortization_schedule
  split
  · simp
  · rfl

/-- Witness for C10 at `prepayWitnessCfg` (k = 2, principal 100). -/
theorem prepayment_entry_charges_no_interest_witness :
    prepayWitnessCfg.prepayment_info = some { prepayment_month := some 2 } ∧
    (∀ e ∈ (generate_amortization_schedule 100 prepayWitnessCfg).payments,
      e.month = 2 →
      e.interest = 0 ∧ e.remaining_balance = 0 ∧
      e.fees = _calculate_prepayment_fee e.principal 2 prepayWitnessCfg.tiers ∧
      e.payment = e.principal + e.fees) ∧
    (generate_amortization_schedule 100 prepayWitnessCfg).total_interest =
      (((generate_amortization_schedule 100 prepayWitnessCfg).payments.filter
        (fun e => decide (e.month ≠ 2))).map (·.interest)).sum := by
  refine ⟨rfl, ?_, ?_⟩
  · exact (prepayment_entry_charges_no_interest 100 prepayWitnessCfg
      { prepayment_month := some 2 } 2 rfl rfl).1
  · exact (prepayment_entry_charges_no_interest 100 prepayWitnessCfg
      { prepayment_month := some 2 } 2 rfl rfl).2

/-- `npvAt` at a rational point agrees with the rational NPV. -/
theorem npvAt_ratCast (q : ℚ) : ∀ l : List ℚ, npvAt (q : ℝ) l = ((npvAtQ q l : ℚ) : ℝ) := by
  intro l
  induction l with
  | nil => simp [npvAt, npvAtQ]
  | cons c rest ih =>
    rw [npvAt, npvAtQ, ih]
    push_cast
    ring

/-- The cashflow vector `calculate_apr` builds with no prepayment fee:
net disbursement, then the negated monthly outflows. -/
theorem aprCashflows_no_prepay (P : ℚ) (s : AmortizationSchedule) (F : ℚ) :
    aprCashflows P s F 0 = (P - F) :: s.payments.map (fun e => -(monthlyOutflow e)) := by
  unfold aprCashflows monthlyOutflow
  congr 1
  have h1 : (fun (ip : ℕ × MonthlyPayment) =>
      if ip.1 = s.payments.length - 1 then
        -(ip.2.payment + ip.2.fees + ip.2.insurance + 0)
      else -(ip.2.payment + ip.2.fees + ip.2.insurance)) =
      (fun ip : ℕ × MonthlyPayment =>
        -(ip.2.payment + ip.2.fees + ip.2.insurance)) := by
    funext ip
    rw [add_zero, ite_self]
  rw [h1]
  rw [show (fun ip : ℕ × MonthlyPayment =>
      -(ip.2.payment + ip.2.fees + ip.2.insurance)) =
      ((fun e : MonthlyPayment => -(e.payment + e.fees + e.insurance)) ∘ Prod.snd)
    from rfl]
  rw [← List.map_map, List.enum_map_snd]

/-! ### Analytic facts about `npvAt` -/

/-- NPV of an all-nonpositive vector is nonpositive past rate -1. -/
theorem npvAt_nonpos {l : List ℚ} (hl : ∀ c ∈ l, c ≤ 0) {x : ℝ}
    (hx : -1 < x) : npvAt x l ≤ 0 := by
  induction l with
  | nil => simp [npvAt]
  | cons c rest ih =>
    rw [npvAt]
    have hc : (c : ℝ) ≤ 0 := by
      exact_mod_cast hl c (List.mem_cons_self c rest)
    have hrest : npvAt x rest ≤ 0 :=
      ih (fun d hd => hl d (List.mem_cons_of_mem c hd))
    have hx1 : (0 : ℝ) < 1 + x := by linarith
    have := div_nonpos_of_nonpos_of_nonneg hrest hx1.le
    linarith

/-- NPV of an all-nonpositive vector containing a strictly negative entry
is strictly negative past rate -1. -/
theorem npvAt_neg {l : List ℚ} (hl : ∀ c ∈ l, c ≤ 0)
    (hneg : ∃ c ∈ l, c < 0) {x : ℝ} (hx : -1 < x) : npvAt x l < 0 := by
  induction l with
  | nil => simp at hneg
  | cons c rest ih =>
    rw [npvAt]
    have hc : (c : ℝ) ≤ 0 := by
      exact_mod_cast hl c (List.mem_cons_self c rest)
    have hx1 : (0 : ℝ) < 1 + x := by linarith
    rcases hneg with ⟨d, hd, hdneg⟩
    rcases List.mem_cons.mp hd with hdc | hdrest
    · have hc' : (c : ℝ) < 0 := by
        subst hdc
        exact_mod_cast hdneg
      have hrest : npvAt x rest ≤ 0 :=
        npvAt_nonpos (fun d hd => hl d (List.mem_cons_of_mem c hd)) hx
      have := div_nonpos_of_nonpos_of_nonneg hrest hx1.le
      linarith
    · have hrest : npvAt x rest < 0 :=
        ih (fun d hd => hl d (List.mem_cons_of_mem c hd)) ⟨d, hdrest, hdneg⟩
      have := div_neg_of_neg_of_pos hrest hx1
      linarith

/-- NPV of an all-nonpositive vector is monotone in the rate. -/
theorem npvAt_mono {l : List ℚ} (hl : ∀ c ∈ l, c ≤ 0) {x y : ℝ}
    (hx : -1 < x) (hxy : x ≤ y) : npvAt x l ≤ npvAt y l := by
  induction l with
  | nil => simp [npvAt]
  | cons c rest ih =>
    rw [npvAt, npvAt]
    have hx1 : (0 : ℝ) < 1 + x := by linarith
    have hy1 : (0 : ℝ) < 1 + y := by linarith
    have hrx : npvAt x rest ≤ npvAt y rest :=
      ih (fun d hd => hl d (List.mem_cons_of_mem c hd))
    have hry : npvAt y rest ≤ 0 :=
      npvAt_nonpos (fun d hd => hl d (List.mem_cons_of_mem c hd)) (by linarith)
    have h1 : npvAt x rest / (1 + x) ≤ npvAt y rest / (1 + x) :=
      (div_le_div_right hx1).mpr hrx
    have h2 : npvAt y rest / (1 + x) ≤ npvAt y rest / (1 + y) := by
      rw [div_le_div_iff hx1 hy1]
      nlinarith
    linarith

/-- Strict monotonicity of the NPV of a loan-shaped vector (a head
followed by nonpositive outflows whose NPV is strictly negative). -/
theorem npvAt_cons_strictMono (c0 : ℚ) {l : List ℚ} (hl : ∀ c ∈ l, c ≤ 0)
    (hneg : ∃ c ∈ l, c < 0) {x y : ℝ} (hx : -1 < x) (hxy : x < y) :
    npvAt x (c0 :: l) < npvAt y (c0 :: l) := by
  rw [npvAt, npvAt]
  have hx1 : (0 : ℝ) < 1 + x := by linarith
  have hy1 : (0 : ℝ) < 1 + y := by linarith
  have hrx : npvAt x l ≤ npvAt y l := npvAt_mono hl hx hxy.le
  have hry : npvAt y l < 0 := npvAt_neg hl hneg (by linarith)
  have h1 : npvAt x l / (1 + x) ≤ npvAt y l / (1 + x) :=
    (div_le_div_right hx1).mpr hrx
  have h2 : npvAt y l / (1 + x) < npvAt y l / (1 + y) := by
    rw [div_lt_div_iff hx1 hy1]
    nlinarith
  linarith

/-- The NPV is continuous in the rate past -1. -/
theorem npvAt_continuousOn (l : List ℚ) :
    ContinuousOn (fun x => npvAt x l) (Set.Ioi (-1 : ℝ)) := by
  induction l with
  | nil =>
    simp only [npvAt]
    exact continuousOn_const
  | cons c rest ih =>
    simp only [npvAt]
    apply ContinuousOn.add continuousOn_const
    apply ContinuousOn.div ih
    · exact (continuous_const.add continuous_id).continuousOn
    · intro x hx
      have : (-1 : ℝ) < x := hx
      intro hzero
      linarith [hzero]

/-- Crude bound: for nonnegative rates the NPV is at least
`head - (sum of absolute values of the tail)`. -/
theorem npvAt_abs_bound (l : List ℚ) {x : ℝ} (hx : (0 : ℝ) ≤ x) :
    |npvAt x l| ≤ ((l.map (fun c => |c|)).sum : ℚ) := by
  induction l with
  | nil =>
    simp [npvAt]
  | cons c rest ih =>
    rw [npvAt]
    have hx1 : (1 : ℝ) ≤ 1 + x := by linarith
    have h1 : |npvAt x rest / (1 + x)| ≤ |npvAt x rest| := by
      rw [abs_div]
      rw [abs_of_pos (by linarith : (0:ℝ) < 1 + x)]
      apply div_le_self (abs_nonneg _) hx1
    calc |(c : ℝ) + npvAt x rest / (1 + x)|
        ≤ |(c : ℝ)| + |npvAt x rest / (1 + x)| := abs_add _ _
      _ ≤ |(c : ℝ)| + |npvAt x rest| := by linarith
      _ ≤ |(c : ℝ)| + ((rest.map (fun c => |c|)).sum : ℚ) := by linarith [ih]
      _ = (((c :: rest).map (fun c => |c|)).sum : ℚ) := by
          push_cast
          simp

/-! ### The fixed-rate schedule's cashflow identity -/

/-- When the fixed period covers the whole tenor, the carried rate never
moves. -/
theorem monthRate_fixed (cfg : SchedCfg) (m : ℤ)
    (hfix : cfg.tenor_months ≤ cfg.rate_structure.fixed_months)
    (hm : m ≤ cfg.tenor_months) :
    monthRate cfg m (cfg.rate_structure.fixed_rate_pct / 100) =
      cfg.rate_structure.fixed_rate_pct / 100 := by
  unfold monthRate RateStructure.get_rate_for_month
  dsimp only
  rw [if_pos (by omega : m ≤ cfg.rate_structure.fixed_months)]
  rw [sub_self, abs_zero]
  rw [if_neg (by norm_num)]

/-- With a nonnegative rate the annuity payment never exceeds the balance
plus one month's interest. -/
theorem annuity_payment_le (P r : ℚ) (m : ℤ) (hP : 0 ≤ P) (hr : 0 ≤ r)
    (hm : 1 ≤ m) : annuity_payment P r m ≤ P * (1 + r / 12) := by
  rcases eq_or_lt_of_le hP with hP0 | hP0
  · unfold annuity_payment
    rw [if_pos (Or.inl hP0.symm.le)]
    nlinarith
  · unfold annuity_payment
    rw [if_neg (by push_neg; constructor <;> linarith)]
    have hmax : max r 0 = r := max_eq_left hr
    dsimp only
    rw [hmax]
    by_cases h0 : r / 12 = 0
    · rw [if_pos h0]
      have hm1 : (1 : ℚ) ≤ (m : ℚ) := by exact_mod_cast hm
      have : P / (m : ℚ) ≤ P := div_le_self hP0.le hm1
      nlinarith [div_nonneg hP0.le (by linarith : (0:ℚ) ≤ (m:ℚ))]
    · rw [if_neg h0]
      have hmr : 0 < r / 12 := lt_of_le_of_ne (by positivity) (Ne.symm h0)
      set f := (1 + r / 12) ^ m.toNat with hf
      have hfge : 1 + r / 12 ≤ f := by
        rw [hf]
        exact le_self_pow (by linarith) (by omega)
      have hf1 : (1 : ℚ) < f := by linarith
      rw [div_le_iff (by linarith)]
      nlinarith

/-- The recorded payment is nonnegative for nonnegative balance and
rate. -/
theorem monthPayment_nonneg (cfg : SchedCfg) (m : ℤ) (B r : ℚ)
    (hB : 0 ≤ B) (hr : 0 ≤ r) (hm1 : 1 ≤ m) (hm2 : m ≤ cfg.tenor_months) :
    0 ≤ monthPayment cfg m B r (monthInterest cfg m B r) := by
  have hint : 0 ≤ monthInterest cfg m B r := by
    unfold monthInterest
    split
    · exact le_refl 0
    · positivity
  unfold monthPayment
  split_ifs with hg heq
  · exact hint
  · have hden : (0 : ℚ) ≤ ((cfg.tenor_months - m + 1 : ℤ) : ℚ) := by
      exact_mod_cast (by omega : (0:ℤ) ≤ cfg.tenor_months - m + 1)
    have := div_nonneg hB hden
    linarith
  · exact annuity_payment_nonneg B r (cfg.tenor_months - m + 1)

/-- Monthly insurance is nonnegative on a nonnegative basis. -/
theorem monthly_insurance_nonneg (balance : ℚ) (fs : FeeStructure)
    (hb : 0 ≤ balance) (h1 : 0 ≤ fs.insurance_vnd)
    (h2 : 0 ≤ fs.insurance_annual_pct) (h3 : 0 ≤ fs.property_value_vnd) :
    0 ≤ _calculate_monthly_insurance balance fs := by
  unfold _calculate_monthly_insurance
  split_ifs <;> positivity

/-- The fixed-rate month identity: the recorded balance is the grown
balance minus the recorded payment. -/
theorem normalEntry_balance_identity (cfg : SchedCfg) (m : ℤ) (B r : ℚ)
    (hB : 0 ≤ B) (hr : 0 ≤ r) (hig : cfg.grace_interest_months ≤ 0)
    (hm1 : 1 ≤ m) (hm2 : m ≤ cfg.tenor_months) :
    (normalEntry cfg m B r).remaining_balance
      = B * (1 + r / 12) - (normalEntry cfg m B r).payment := by
  have hnig : ¬ m ≤ cfg.grace_interest_months := by omega
  show postBalance cfg m B r = B * (1 + r / 12) - monthPayment cfg m B r (monthInterest cfg m B r)
  unfold postBalance clampedPrincipal rawPrincipal monthPayment monthInterest
  rw [if_neg hnig]
  split_ifs with hg heq
  · rw [min_eq_left (le_refl 0 |>.trans hB)]
    rw [max_eq_right (by linarith)]
    ring
  · have hden : (1 : ℚ) ≤ ((cfg.tenor_months - m + 1 : ℤ) : ℚ) := by
      exact_mod_cast (by omega : (1:ℤ) ≤ cfg.tenor_months - m + 1)
    have hdivle : B / ((cfg.tenor_months - m + 1 : ℤ) : ℚ) ≤ B :=
      div_le_self hB hden
    rw [min_eq_left hdivle]
    rw [max_eq_right (by linarith)]
    ring
  · have hple := annuity_payment_le B r (cfg.tenor_months - m + 1) hB hr (by omega)
    have hraw : annuity_payment B r (cfg.tenor_months - m + 1) - B * (r / 12) ≤ B := by
      nlinarith
    rw [min_eq_left hraw]
    rw [max_eq_right (by nlinarith)]
    ring

/-- Along a fixed-rate, no-prepayment run, every recorded payment, fee and
insurance amount is nonnegative. -/
theorem amortRec_outflows_nonneg (cfg : SchedCfg)
    (hfix : cfg.tenor_months ≤ cfg.rate_structure.fixed_months)
    (hrate : 0 ≤ cfg.rate_structure.fixed_rate_pct)
    (hprepay : cfg.prepayment_info = none) (hfee : feeNonneg cfg) :
    ∀ (fuel : ℕ) (m : ℤ) (B : ℚ), 1 ≤ m → m + fuel = cfg.tenor_months + 1 →
      0 ≤ B →
      ∀ e ∈ amortRec cfg fuel m B (cfg.rate_structure.fixed_rate_pct / 100),
        0 ≤ e.payment ∧ 0 ≤ e.fees ∧ 0 ≤ e.insurance := by
  have hr0 : 0 ≤ cfg.rate_structure.fixed_rate_pct / 100 := by positivity
  have hnofire : ∀ m, ¬ prepayFires cfg m := by
    intro m
    unfold prepayFires
    rw [hprepay]
    exact fun h => h
  intro fuel
  induction fuel with
  | zero =>
    intro m B hm1 hmf hB e he
    simp [amortRec] at he
  | succ n ih =>
    intro m B hm1 hmf hB e he
    rw [amortRec, if_neg (hnofire m)] at he
    rw [monthRate_fixed cfg m hfix (by omega)] at he
    have hm2 : m ≤ cfg.tenor_months := by omega
    have hhead : 0 ≤ (normalEntry cfg m B
        (cfg.rate_structure.fixed_rate_pct / 100)).payment ∧
        0 ≤ (normalEntry cfg m B
          (cfg.rate_structure.fixed_rate_pct / 100)).fees ∧
        0 ≤ (normalEntry cfg m B
          (cfg.rate_structure.fixed_rate_pct / 100)).insurance := by
      refine ⟨monthPayment_nonneg cfg m B _ hB hr0 hm1 hm2, ?_, ?_⟩
      · unfold feeNonneg at hfee
        rcases hfs : cfg.fee_structure with _ | fs
        · simp [normalEntry, hfs]
        · rw [hfs] at hfee
          simp only [normalEntry, hfs]
          exact hfee.1
      · unfold feeNonneg at hfee
        rcases hfs : cfg.fee_structure with _ | fs
        · simp [normalEntry, hfs]
        · rw [hfs] at hfee
          simp only [normalEntry, hfs]
          have hbal : 0 ≤ postBalance cfg m B
              (cfg.rate_structure.fixed_rate_pct / 100)
              + clampedPrincipal cfg m B
                  (cfg.rate_structure.fixed_rate_pct / 100) := by
            have h1 := postBalance_nonneg cfg m B
              (cfg.rate_structure.fixed_rate_pct / 100)
            have h2 : 0 ≤ clampedPrincipal cfg m B
                (cfg.rate_structure.fixed_rate_pct / 100) := by
              unfold clampedPrincipal
              exact le_min (rawPrincipal_nonneg cfg m B _ hB hm2) hB
            linarith
          exact monthly_insurance_nonneg _ fs hbal hfee.2.1 hfee.2.2.1 hfee.2.2.2
    rcases List.mem_cons.mp he with hh | ht
    · subst hh
      exact hhead
    · revert ht
      split
      · intro ht
        simp at ht
      · intro ht
        exact ih (m + 1) _ (by omega) (by omega)
          (postBalance_nonneg cfg m B _) e ht

/-- An all-zero cashflow vector has zero NPV. -/
theorem npvAtQ_zero (x : ℚ) : ∀ l : List ℚ, (∀ c ∈ l, c = 0) → npvAtQ x l = 0 := by
  intro l
  induction l with
  | nil => simp [npvAtQ]
  | cons c rest ih =>
    intro h
    rw [npvAtQ, h c (List.mem_cons_self c rest),
      ih (fun d hd => h d (List.mem_cons_of_mem c hd))]
    simp

/-- The recurring fee and insurance components of a normal entry are
nonnegative under a nonnegative fee configuration. -/
theorem normalEntry_extras_nonneg (cfg : SchedCfg) (m : ℤ) (B r : ℚ)
    (hB : 0 ≤ B) (hm2 : m ≤ cfg.tenor_months) (hfee : feeNonneg cfg) :
    0 ≤ (normalEntry cfg m B r).fees ∧ 0 ≤ (normalEntry cfg m B r).insurance := by
  unfold feeNonneg at hfee
  constructor
  · rcases hfs : cfg.fee_structure with _ | fs
    · simp [normalEntry, hfs]
    · rw [hfs] at hfee
      simp only [normalEntry, hfs]
      exact hfee.1
  · rcases hfs : cfg.fee_structure with _ | fs
    · simp [normalEntry, hfs]
    · rw [hfs] at hfee
      simp only [normalEntry, hfs]
      have hbal : 0 ≤ postBalance cfg m B r + clampedPrincipal cfg m B r := by
        have h1 := postBalance_nonneg cfg m B r
        have h2 : 0 ≤ clampedPrincipal cfg m B r := by
          unfold clampedPrincipal
          exact le_min (rawPrincipal_nonneg cfg m B r hB hm2) hB
        linarith
      exact monthly_insurance_nonneg _ fs hbal hfee.2.1 hfee.2.2.1 hfee.2.2.2

/-- Discounting telescopes: the NPV (at the monthly rate) of the negated
outflow stream of a fixed-rate, no-prepayment run starting from balance `B`
is at most `-B*(1+mr)` plus the discounted final balance. -/
theorem amortRec_npv_le (cfg : SchedCfg)
    (hfix : cfg.tenor_months ≤ cfg.rate_structure.fixed_months)
    (hrate : 0 ≤ cfg.rate_structure.fixed_rate_pct)
    (hig : cfg.grace_interest_months ≤ 0)
    (hprepay : cfg.prepayment_info = none) (hfee : feeNonneg cfg) :
    ∀ (fuel : ℕ) (m : ℤ) (B : ℚ), 1 ≤ m → m + fuel = cfg.tenor_months + 1 →
      0 ≤ B →
      ∀ e, (amortRec cfg fuel m B
          (cfg.rate_structure.fixed_rate_pct / 100)).getLast? = some e →
        npvAtQ (cfg.rate_structure.fixed_rate_pct / 100 / 12)
            ((amortRec cfg fuel m B
              (cfg.rate_structure.fixed_rate_pct / 100)).map
                (fun a => -(monthlyOutflow a)))
          ≤ -B * (1 + cfg.rate_structure.fixed_rate_pct / 100 / 12)
            + e.remaining_balance
              / (1 + cfg.rate_structure.fixed_rate_pct / 100 / 12)
                ^ ((amortRec cfg fuel m B
                    (cfg.rate_structure.fixed_rate_pct / 100)).length - 1) := by
  have hr0 : 0 ≤ cfg.rate_structure.fixed_rate_pct / 100 := by positivity
  set r0 : ℚ := cfg.rate_structure.fixed_rate_pct / 100 with hr0def
  set mr : ℚ := r0 / 12 with hmrdef
  have hmr : 0 ≤ mr := by positivity
  have h1mr : (0 : ℚ) < 1 + mr := by linarith
  have h1mrne : (1 + mr : ℚ) ≠ 0 := ne_of_gt h1mr
  have hnofire : ∀ m, ¬ prepayFires cfg m := by
    intro m
    unfold prepayFires
    rw [hprepay]
    exact fun h => h
  intro fuel
  induction fuel with
  | zero =>
    intro m B hm1 hmf hB e he
    simp [amortRec] at he
  | succ n ih =>
    intro m B hm1 hmf hB e he
    have hm2 : m ≤ cfg.tenor_months := by omega
    rw [amortRec, if_neg (hnofire m), monthRate_fixed cfg m hfix hm2] at he ⊢
    set E := normalEntry cfg m B r0 with hEdef
    have hpay : E.payment = B * (1 + mr) - E.remaining_balance := by
      have := normalEntry_balance_identity cfg m B r0 hB hr0 hig hm1 hm2
      rw [← hEdef] at this
      rw [hmrdef]
      linarith [this]
    have hextras := normalEntry_extras_nonneg cfg m B r0 hB hm2 hfee
    have hrbnn : 0 ≤ E.remaining_balance := postBalance_nonneg cfg m B r0
    by_cases hstop : E.remaining_balance ≤ 0
    · rw [if_pos hstop] at he ⊢
      rw [List.getLast?_singleton] at he
      rw [Option.some_inj] at he
      subst he
      simp only [List.map_cons, List.map_nil, List.length_cons,
        List.length_nil, npvAtQ]
      rw [zero_div, add_zero]
      norm_num
      rw [monthlyOutflow, hpay]
      linarith [hextras.1, hextras.2]
    · rw [if_neg hstop] at he ⊢
      rcases Nat.eq_zero_or_pos n with hn0 | hnpos
      · subst hn0
        simp only [amortRec, List.getLast?_singleton] at he ⊢
        rw [Option.some_inj] at he
        subst he
        simp only [List.map_cons, List.map_nil, List.length_cons,
          List.length_nil, npvAtQ]
        rw [zero_div, add_zero]
        norm_num
        rw [monthlyOutflow, hpay]
        linarith [hextras.1, hextras.2]
      · have hne : amortRec cfg n (m + 1) E.remaining_balance r0 ≠ [] := by
          obtain ⟨n', rfl⟩ := Nat.exists_eq_succ_of_ne_zero (by omega : n ≠ 0)
          rw [amortRec]
          split
          · exact List.cons_ne_nil _ _
          · exact List.cons_ne_nil _ _
        set tail := amortRec cfg n (m + 1) E.remaining_balance r0 with htaildef
        have hget : (E :: tail).getLast? = tail.getLast? := by
          rcases tail with _ | ⟨t, ts⟩
          · exact absurd rfl hne
          · rw [List.getLast?_cons_cons]
        rw [hget] at he
        have hIH := ih (m + 1) E.remaining_balance (by omega) (by omega)
          hrbnn e he
        rw [← htaildef] at hIH
        have hLpos : 0 < tail.length := List.length_pos.mpr hne
        have hpowsub : (1 + mr) ^ (tail.length - 1) * (1 + mr)
            = (1 + mr) ^ tail.length := by
          rw [← pow_succ, Nat.sub_add_cancel hLpos]
        have hdiv : npvAtQ mr (tail.map (fun a => -(monthlyOutflow a))) / (1 + mr)
            ≤ -E.remaining_balance
              + e.remaining_balance / (1 + mr) ^ tail.length := by
          have h1 := (div_le_div_right h1mr).mpr hIH
          have h2 : (-E.remaining_balance * (1 + mr)
              + e.remaining_balance / (1 + mr) ^ (tail.length - 1)) / (1 + mr)
              = -E.remaining_balance
                + e.remaining_balance / (1 + mr) ^ tail.length := by
            rw [← hpowsub]
            field_simp
            ring
          rw [h2] at h1
          exact h1
        simp only [List.map_cons, List.length_cons, npvAtQ]
        have hlen : tail.length + 1 - 1 = tail.length := by omega
        rw [hlen]
        have hout : -(monthlyOutflow E) ≤ -(B * (1 + mr) - E.remaining_balance) := by
          rw [monthlyOutflow, hpay]
          linarith [hextras.1, hextras.2]
        linarith [hdiv, hout]

/-- C5 amended: for a fixed-rate, no-prepayment loan with positive upfront
fees below the principal (nonnegative nominal rate, no interest grace,
principal grace shorter than the tenor, nonnegative recurring fees), the
cashflow vector `calculate_apr` builds has a unique NPV root past -1 - the
exact IRR the Newton solver approximates; that root exceeds the monthly
nominal rate, and its annualization `(1+x)^12 - 1` strictly exceeds the
nominal annual rate. -/
theorem true_irr_of_fee_laden_cashflows_exceeds_nominal
    (P F : ℚ) (cfg : SchedCfg)
    (hP : 0 < P) (hF : 0 < F) (hFP : F < P)
    (ht1 : 1 ≤ cfg.tenor_months)
    (hfix : cfg.tenor_months ≤ cfg.rate_structure.fixed_months)
    (hrate : 0 ≤ cfg.rate_structure.fixed_rate_pct)
    (hig : cfg.grace_interest_months ≤ 0)
    (hgp : cfg.grace_principal_months < cfg.tenor_months)
    (hprepay : cfg.prepayment_info = none)
    (hfee : feeNonneg cfg) :
    ∃ x : ℝ,
      (-1 < x ∧
        npvAt x (aprCashflows P (generate_amortization_schedule P cfg) F 0) = 0) ∧
      ((cfg.rate_structure.fixed_rate_pct : ℝ) / 100 / 12 < x ∧
        (cfg.rate_structure.fixed_rate_pct : ℝ) / 100 < (1 + x) ^ 12 - 1) ∧
      (∀ y : ℝ, -1 < y →
        npvAt y (aprCashflows P (generate_amortization_schedule P cfg) F 0) = 0 →
        y = x) := by
  have hr0 : 0 ≤ cfg.rate_structure.fixed_rate_pct / 100 := by positivity
  set r0 : ℚ := cfg.rate_structure.fixed_rate_pct / 100 with hr0def
  set mr : ℚ := r0 / 12 with hmrdef
  have hmr : 0 ≤ mr := by positivity
  have h1mr : (0 : ℚ) < 1 + mr := by linarith
  -- the schedule's payment list is the fixed-rate run
  have hsched : (generate_amortization_schedule P cfg).payments
      = amortRec cfg cfg.tenor_months.toNat 1 P r0 := by
    unfold generate_amortization_schedule
    rw [if_neg (by push_neg; exact ⟨hP, by omega⟩)]
    dsimp only
    congr 1
    unfold RateStructure.get_rate_for_month
    rw [if_pos (by omega : (1:ℤ) ≤ cfg.rate_structure.fixed_months)]
  set run := amortRec cfg cfg.tenor_months.toNat 1 P r0 with hrundef
  set outs := run.map (fun e => -(monthlyOutflow e)) with houtsdef
  have hfuel : (1 : ℤ) + (cfg.tenor_months.toNat : ℤ) = cfg.tenor_months + 1 := by
    omega
  -- the final balance is zero
  obtain ⟨elast, hlastget, hlast0⟩ :=
    amortRec_last_balance_zero cfg cfg.tenor_months.toNat 1 P r0 hP hfuel
      (by omega) (Or.inl hgp)
  -- the rational NPV at the monthly rate is at most -P*(1+mr)
  have hnpvQ : npvAtQ mr outs ≤ -P * (1 + mr) := by
    have h := amortRec_npv_le cfg hfix hrate hig hprepay hfee
      cfg.tenor_months.toNat 1 P (le_refl 1) hfuel hP.le elast hlastget
    rw [← hrundef, ← houtsdef, hlast0, zero_div, add_zero] at h
    exact h
  -- every element of the outflow vector is nonpositive
  have houts : ∀ c ∈ outs, c ≤ 0 := by
    intro c hc
    obtain ⟨a, ha, rfl⟩ := List.mem_map.mp hc
    have h := amortRec_outflows_nonneg cfg hfix hrate hprepay hfee
      cfg.tenor_months.toNat 1 P (le_refl 1) hfuel hP.le a ha
    rw [monthlyOutflow]
    linarith [h.1, h.2.1, h.2.2]
  -- some element is strictly negative
  have hnegex : ∃ c ∈ outs, c < 0 := by
    by_contra hcon
    push_neg at hcon
    have hall : ∀ c ∈ outs, c = 0 := fun c hc =>
      le_antisymm (houts c hc) (hcon c hc)
    have := npvAtQ_zero mr outs hall
    rw [this] at hnpvQ
    nlinarith
  -- the full cashflow vector
  have hcfs : aprCashflows P (generate_amortization_schedule P cfg) F 0
      = (P - F) :: outs := by
    rw [aprCashflows_no_prepay, hsched]
  rw [hcfs]
  -- NPV at the monthly rate is at most -F < 0
  have hq : npvAtQ mr ((P - F) :: outs) ≤ -F := by
    rw [npvAtQ]
    have hd : npvAtQ mr outs / (1 + mr) ≤ (-P * (1 + mr)) / (1 + mr) :=
      (div_le_div_right h1mr).mpr hnpvQ
    have he : (-P * (1 + mr)) / (1 + mr) = -P := by
      field_simp
    rw [he] at hd
    linarith
  have hgmr : npvAt (mr : ℝ) ((P - F) :: outs) ≤ -(F : ℝ) := by
    rw [npvAt_ratCast]
    exact_mod_cast hq
  -- a point where the NPV is positive
  set S : ℚ := (outs.map (fun c => |c|)).sum with hSdef
  have hS : 0 ≤ S := by
    apply List.sum_nonneg
    intro q hq'
    obtain ⟨c, _, rfl⟩ := List.mem_map.mp hq'
    exact abs_nonneg c
  have hPF : (0 : ℝ) < (P : ℝ) - (F : ℝ) := by
    have : (F : ℝ) < (P : ℝ) := by exact_mod_cast hFP
    linarith
  have hmrR : (0 : ℝ) ≤ (mr : ℝ) := by exact_mod_cast hmr
  have hSR : (0 : ℝ) ≤ (S : ℝ) := by exact_mod_cast hS
  set X : ℝ := (mr : ℝ) + (S : ℝ) / ((P : ℝ) - (F : ℝ)) + 1 with hXdef
  have hdivnn : (0 : ℝ) ≤ (S : ℝ) / ((P : ℝ) - (F : ℝ)) :=
    div_nonneg hSR hPF.le
  have hmrX : (mr : ℝ) < X := by
    rw [hXdef]
    linarith
  have hX0 : (0 : ℝ) ≤ X := by
    rw [hXdef]
    linarith
  have h1X : (0 : ℝ) < 1 + X := by linarith
  have habs : |npvAt X outs| ≤ (S : ℝ) := npvAt_abs_bound outs hX0
  have hgX : 0 < npvAt X ((P - F) :: outs) := by
    rw [npvAt]
    have hPFcast : ((P - F : ℚ) : ℝ) = (P : ℝ) - (F : ℝ) := by push_cast; ring
    rw [hPFcast]
    have hlt : (S : ℝ) / (1 + X) < (P : ℝ) - (F : ℝ) := by
      rcases eq_or_lt_of_le hSR with hS0 | hSpos
      · rw [← hS0, zero_div]
        exact hPF
      · rw [div_lt_iff h1X]
        have hden : (S : ℝ) / ((P : ℝ) - (F : ℝ)) < 1 + X := by
          rw [hXdef]
          linarith
        have := (div_lt_iff hPF).mp hden
        nlinarith
    have hlow : -(S : ℝ) / (1 + X) ≤ npvAt X outs / (1 + X) := by
      apply (div_le_div_right h1X).mpr
      linarith [neg_abs_le (npvAt X outs)]
    have : -((S : ℝ) / (1 + X)) ≤ npvAt X outs / (1 + X) := by
      rw [← neg_div]
      exact hlow
    linarith
  -- intermediate value theorem
  have hsub : Set.Icc (mr : ℝ) X ⊆ Set.Ioi (-1 : ℝ) := by
    intro z hz
    have := hz.1
    simp only [Set.mem_Ioi]
    linarith
  have hcont : ContinuousOn (fun x => npvAt x ((P - F) :: outs))
      (Set.Icc (mr : ℝ) X) :=
    (npvAt_continuousOn ((P - F) :: outs)).mono hsub
  have hivt := intermediate_value_Icc hmrX.le hcont
  have h0mem : (0 : ℝ) ∈ Set.Icc (npvAt (mr : ℝ) ((P - F) :: outs))
      (npvAt X ((P - F) :: outs)) := by
    constructor
    · have hF' : (0 : ℝ) < (F : ℝ) := by exact_mod_cast hF
      linarith
    · exact hgX.le
  obtain ⟨x, hxmem, hgx⟩ := hivt h0mem
  change npvAt x ((P - F) :: outs) = 0 at hgx
  have hx1 : (-1 : ℝ) < x := by
    have := hxmem.1
    linarith
  have hxgt : (mr : ℝ) < x := by
    rcases lt_or_eq_of_le hxmem.1 with h | h
    · exact h
    · exfalso
      rw [← h] at hgx
      have hF' : (0 : ℝ) < (F : ℝ) := by exact_mod_cast hF
      rw [hgx] at hgmr
      linarith
  have hmrcast : (mr : ℝ) = (cfg.rate_structure.fixed_rate_pct : ℝ) / 100 / 12 := by
    rw [hmrdef, hr0def]
    push_cast
    ring
  refine ⟨x, ⟨hx1, hgx⟩, ⟨by rw [← hmrcast]; exact hxgt, ?_⟩, ?_⟩
  · -- annualization
    have hb : 1 + 12 * (mr : ℝ) ≤ (1 + (mr : ℝ)) ^ 12 :=
      one_add_mul_le_pow (by linarith : (-2 : ℝ) ≤ (mr : ℝ)) 12
    have hp : (1 + (mr : ℝ)) ^ 12 < (1 + x) ^ 12 :=
      pow_lt_pow_left (by linarith) (by linarith) (by norm_num)
    have h12 : 12 * (mr : ℝ) = (cfg.rate_structure.fixed_rate_pct : ℝ) / 100 := by
      rw [hmrcast]
      ring
    linarith
  · -- uniqueness
    intro y hy1 hgy
    rcases lt_trichotomy y x with h | h | h
    · exfalso
      have := npvAt_cons_strictMono (P - F) houts hnegex hy1 h
      rw [hgy, hgx] at this
      exact lt_irrefl 0 this
    · exact h
    · exfalso
      have := npvAt_cons_strictMono (P - F) houts hnegex hx1 h
      rw [hgy, hgx] at this
      exact lt_irrefl 0 this

/-- Witness for the amended C5 at a 2-month, 12% fixed-rate loan of 100
with upfront fees 1. -/
theorem true_irr_of_fee_laden_cashflows_exceeds_nominal_witness :
    witnessCfg.prepayment_info = none ∧ feeNonneg witnessCfg ∧
    ∃ x : ℝ,
      (-1 < x ∧
        npvAt x (aprCashflows 100 (generate_amortization_schedule 100 witnessCfg) 1 0) = 0) ∧
      ((witnessCfg.rate_structure.fixed_rate_pct : ℝ) / 100 / 12 < x ∧
        (witnessCfg.rate_structure.fixed_rate_pct : ℝ) / 100 < (1 + x) ^ 12 - 1) ∧
      (∀ y : ℝ, -1 < y →
        npvAt y (aprCashflows 100 (generate_amortization_schedule 100 witnessCfg) 1 0) = 0 →
        y = x) :=
  ⟨rfl, by simp [feeNonneg, witnessCfg],
   true_irr_of_fee_laden_cashflows_exceeds_nominal 100 1 witnessCfg (by norm_num) (by norm_num)
     (by norm_num) (by norm_num [witnessCfg]) (by norm_num [witnessCfg])
     (by norm_num [witnessCfg]) (by norm_num [witnessCfg]) (by norm_num [witnessCfg])
     rfl (by simp [feeNonneg, witnessCfg])⟩


/-- Witness for the amended C8: with no disbursement deadline, runs on days
5 and 99 coincide. -/
theorem engine_deterministic_given_run_date_witness :
    ({} : ApplicationInfo).need_disbursement_by_date = none ∧
    generate_recommendations_core [defaultProduct] {} {} 5 =
      generate_recommendations_core [defaultProduct] {} {} 99 :=
  ⟨rfl, engine_deterministic_given_run_date [defaultProduct] {} {} 5 99 rfl⟩


end LoanAI
